import Mathlib

/-!
Verification development for the shader resolution subsystem of the
renderer (code/renderer_vulkan/tr_findshader.c).

Strings are modelled as lists of characters. External collaborators that
are declared outside this translation unit (the extension stripper, the
pending-shader builder, the finalizer, the image loader, the tokenizer)
are modelled from the specification at their interface boundary; each
such definition carries a doc comment saying so. Machine integers stay
in Nat / Int: the hash accumulator is a nonnegative 64-bit long whose
value never approaches overflow for bounded names, so plain Nat
arithmetic is faithful.
-/

namespace TrFindShader

/-- Table size of the shader text hash table (MAX_SHADERTEXT_HASH). -/
def MAX_SHADERTEXT_HASH : Nat := 2048

/-- Table size of the shader object cache (FILE_HASH_SIZE). -/
def FILE_HASH_SIZE : Nat := 1024

/-- Maximum length of a quake path name (MAX_QPATH), from the engine headers. -/
def MAX_QPATH : Nat := 64

/-- Lighting mode sentinel for 2D (screen space) rendering, from the engine
headers (LIGHTMAP_2D). -/
def LIGHTMAP_2D : Int := -4

/-- Lighting mode sentinel for per-vertex-color lighting, from the engine
headers (LIGHTMAP_BY_VERTEX). -/
def LIGHTMAP_BY_VERTEX : Int := -3

/-- Lighting mode sentinel for dynamic diffuse lighting, from the engine
headers (LIGHTMAP_NONE). -/
def LIGHTMAP_NONE : Int := -1

/-- Modelled from the spec: the platform specific path separator macro
PATH_SEP; on this platform it is the forward slash. -/
def PATH_SEP : Char := '/'

/-- Loop body of generateHashValue: walk the name, lowercase each character,
stop at the first extension delimiter, normalize path separators, and
accumulate letter * (position + 119). -/
def hashLoop : List Char → Nat → Nat → Nat
  | [], _, hash => hash
  | c :: rest, i, hash =>
      let letter := c.toLower
      if letter = '.' then hash
      else
        let letter := if letter = '\\' then '/' else letter
        let letter := if letter = PATH_SEP then '/' else letter
        hashLoop rest (i + 1) (hash + letter.toNat * (i + 119))

/-- Embedding of generateHashValue: fold the accumulator with itself shifted
right by 10 and by 20, then mask against size - 1. -/
def generateHashValue (fname : List Char) (size : Nat) : Nat :=
  let hash := hashLoop fname 0 0
  let hash := hash ^^^ (hash >>> 10) ^^^ (hash >>> 20)
  hash &&& (size - 1)

/-- Embedding of a zero result of Q_stricmp: two names are equal up to
ASCII letter case. -/
def stricmpEq (a b : List Char) : Prop :=
  a.map Char.toLower = b.map Char.toLower

instance (a b : List Char) : Decidable (stricmpEq a b) := by
  unfold stricmpEq; infer_instance

/-- Helper for the extension stripper: scan the reversed name for the last
dot, failing when a path separator is met first. -/
def dropExtRev : List Char → Option (List Char)
  | [] => none
  | c :: rest => if c = '.' then some rest
      else if c = '/' then none
      else dropExtRev rest

/-- Modelled from the spec: R_StripExtension (declared in the renderer
headers, defined outside this translation unit) removes the extension
suffix that starts at the last dot of the final path component, and
bounds the output to a MAX_QPATH buffer (at most 63 characters). -/
def R_StripExtension (name : List Char) : List Char :=
  (match dropExtRev name.reverse with
   | some r => r.reverse
   | none => name).take (MAX_QPATH - 1)

/-- Embedding of the lightmap index clamp at the top of R_FindShader: a
nonnegative index at or beyond the number of lightmaps downgrades to
per-vertex-color silently; an index below the 2D sentinel downgrades to
per-vertex-color with a warning (the Bool records that the warning is
printed); every other index passes through. -/
def clampLightmapIndex (numLightmaps lightmapIndex : Int) : Int × Bool :=
  if 0 ≤ lightmapIndex ∧ numLightmaps ≤ lightmapIndex then (LIGHTMAP_BY_VERTEX, false)
  else if lightmapIndex < LIGHTMAP_2D then (LIGHTMAP_BY_VERTEX, true)
  else (lightmapIndex, false)

/-- Modelled from the spec: one name { braced-body } definition of the
corpus; parses records whether the external parser accepts its body. -/
structure ShaderDef where
  name : List Char
  parses : Bool
deriving Repr, DecidableEq

/-- Default shader definition used for out-of-range list reads. -/
def dfltDef : ShaderDef := ⟨[], true⟩

/-- Pass 1 step of SetShaderTextHashTableSizes: bump the counter of the
bucket that the definition name hashes to. -/
def pass1Step (acc : Nat → Nat) (d : ShaderDef) : Nat → Nat :=
  fun b => if b = generateHashValue d.name MAX_SHADERTEXT_HASH then acc b + 1 else acc b

/-- Embedding of the pass 1 counters (shaderTextHashTableSizes). -/
def shaderTextHashTableSizes (corpus : List ShaderDef) : Nat → Nat :=
  corpus.foldl pass1Step (fun _ => 0)

/-- Pass 2 step of SetShaderTextHashTableSizes: append the offset of the
definition name token to the bucket its name hashes to. -/
def pass2Step (acc : Nat → List Nat) (p : Nat × ShaderDef) : Nat → List Nat :=
  fun b => if b = generateHashValue p.2.name MAX_SHADERTEXT_HASH then acc b ++ [p.1] else acc b

/-- Embedding of the pass 2 bucket arrays (shaderTextHashTable); the null
sentinel slot that terminates each C array corresponds to the end of the
list. -/
def shaderTextHashTable (corpus : List ShaderDef) : Nat → List Nat :=
  corpus.enum.foldl pass2Step (fun _ => [])

/-- Embedding of FindShaderInShaderText: walk the bucket of the queried
name, re-tokenize the name at each recorded offset and compare case
insensitively; when the bucket walk fails, fall back to the linear scan
of the whole corpus. The returned cursor sits at the opening brace of
the returned definition. -/
def FindShaderInShaderText (corpus : List ShaderDef) (shadername : List Char) :
    Option Nat :=
  let hash := generateHashValue shadername MAX_SHADERTEXT_HASH
  match (shaderTextHashTable corpus hash).find?
      (fun i => decide (stricmpEq (corpus.getD i dfltDef).name shadername)) with
  | some i => some i
  | none =>
      (corpus.enum.find? (fun p => decide (stricmpEq p.2.name shadername))).map Prod.fst

/-- Diagnostics printed through the ri.Printf sink by this translation
unit, as far as the claims observe them. -/
inductive Warn where
  | nullName
  | invalidLightmapIndex
  | parseHadErrors
  | nameExceedsMaxQpath
  | remapShaderNotFound
deriving Repr, DecidableEq

/-- Embedding of shader_t, restricted to the fields the resolution and
remap layer reads or writes: the stored name, the lighting mode, the
stable handle, the default flag, the weak remap reference rendered as an
arena index, and the time offset. The C timeOffset field is a float
assigned from atof(timeOffset); floating point stays abstract by
recording the text whose parsed value was stored. The intrusive next
pointer is rendered by the bucket lists of TrState. -/
structure shader_t where
  name : List Char
  lightmapIndex : Int
  index : Nat
  defaultShader : Bool
  remappedShader : Option Nat
  timeOffset : Option (List Char)
deriving Repr, DecidableEq

/-- Placeholder shader object for out-of-range arena reads. -/
def dfltShader : shader_t := ⟨[], 0, 0, false, none, none⟩

/-- Global renderer state touched by this translation unit: tr.shaders
(the arena of realized shader objects, with the arena position being the
stable handle), the intrusive chains of hashTable rendered as lists of
arena indices whose head is the most recently inserted object,
tr.numLightmaps, tr.defaultShader rendered as an arena index, and the
diagnostics printed so far. -/
structure TrState where
  shaders : List shader_t
  buckets : Nat → List Nat
  numLightmaps : Int
  defaultIdx : Nat
  log : List Warn

/-- Modelled from the spec: the external inputs of resolution are the
indexed shader text corpus and the image loader; the image loader is a
predicate telling whether R_FindImageFile resolves an image for a (raw)
name, the mip and wrap-mode arguments selecting filtering only. -/
structure Env where
  corpus : List ShaderDef
  images : List Char → Bool

/-- Environment with an empty corpus and no loadable images. -/
def env0 : Env := ⟨[], fun _ => false⟩

/-- Embedding of the cache walk of R_FindShader: return the first chain
entry whose stored name matches case insensitively and whose lighting
mode matches the request or which is default flagged. -/
def cacheWalk (shaders : List shader_t) (strippedName : List Char)
    (lightmapIndex : Int) : List Nat → Option Nat
  | [] => none
  | i :: rest =>
      let sh := shaders.getD i dfltShader
      if stricmpEq sh.name strippedName ∧
          (sh.lightmapIndex = lightmapIndex ∨ sh.defaultShader = true) then some i
      else cacheWalk shaders strippedName lightmapIndex rest

/-- Embedding of the cache walk of R_RegisterShaderFromImage, whose source
writes the two conjuncts in the opposite order. -/
def fromImageWalk (shaders : List shader_t) (name : List Char)
    (lightmapIndex : Int) : List Nat → Option Nat
  | [] => none
  | i :: rest =>
      let sh := shaders.getD i dfltShader
      if ((sh.lightmapIndex = lightmapIndex ∨ sh.defaultShader = true) ∧
          stricmpEq sh.name name) then some i
      else fromImageWalk shaders name lightmapIndex rest

/-- Embedding of the name-only chain walk of RE_RemapShader (any lighting
mode, no default-flag disjunct). -/
def nameWalk (shaders : List shader_t) (strippedName : List Char) :
    List Nat → Option Nat
  | [] => none
  | i :: rest =>
      if stricmpEq (shaders.getD i dfltShader).name strippedName then some i
      else nameWalk shaders strippedName rest

/-- Modelled from the spec: R_SetTheShader clears the working shader and
records its (bounded) name and lighting mode. -/
def R_SetTheShader (name : List Char) (lightmapIndex : Int) : shader_t :=
  { name := name.take (MAX_QPATH - 1), lightmapIndex := lightmapIndex,
    index := 0, defaultShader := false, remappedShader := none, timeOffset := none }

/-- Modelled from the spec: R_SetDefaultShader marks the pending object as
default flagged after a parse failure. -/
def R_SetDefaultShader (pending : shader_t) : shader_t :=
  { pending with defaultShader := true }

/-- Modelled from the spec: setDefaultShader marks the pending object as
the unconditional default; per the cache walk comment in R_FindShader
such a default shader is created with lightmapIndex LIGHTMAP_NONE. -/
def setDefaultShader (pending : shader_t) : shader_t :=
  { pending with defaultShader := true, lightmapIndex := LIGHTMAP_NONE }

/-- Modelled from the spec: R_CreateDefaultShadingCmds builds the default
shading stages from the supplied image; it leaves the identity fields of
the pending object unchanged and does not set the default flag. -/
def R_CreateDefaultShadingCmds (pending : shader_t) : shader_t :=
  pending

/-- Embedding of R_UpdateShaderHashTable: push the new shader onto the
head of the chain of the bucket its stored name hashes to. -/
def R_UpdateShaderHashTable (buckets : Nat → List Nat) (name : List Char)
    (newIdx : Nat) : Nat → List Nat :=
  fun b => if b = generateHashValue name FILE_HASH_SIZE then newIdx :: buckets b
    else buckets b

/-- Modelled from the spec: FinishShader realizes the pending object,
assigns it the next stable index, inserts it at the head of its cache
bucket chain (through R_UpdateShaderHashTable) and returns it. -/
def FinishShader (st : TrState) (pending : shader_t) : TrState × Nat :=
  let idx := st.shaders.length
  let sh := { pending with index := idx }
  ({ st with shaders := st.shaders ++ [sh],
             buckets := R_UpdateShaderHashTable st.buckets sh.name idx }, idx)

/-- Embedding of R_FindShader over the modelled state: returns the updated
state and the arena index of the returned shader object. A null name is
rendered as none. -/
def R_FindShader (env : Env) (st : TrState) (name : Option (List Char))
    (lightmapIndex : Int) (mipRawImage : Bool) : TrState × Nat :=
  match name with
  | none => ({ st with log := Warn.nullName :: st.log }, st.defaultIdx)
  | some nm =>
    let clamp := clampLightmapIndex st.numLightmaps lightmapIndex
    let lightmapIndex := clamp.1
    let st := if clamp.2 then { st with log := Warn.invalidLightmapIndex :: st.log }
      else st
    let strippedName := R_StripExtension nm
    let hash := generateHashValue strippedName FILE_HASH_SIZE
    match cacheWalk st.shaders strippedName lightmapIndex (st.buckets hash) with
    | some i => (st, i)
    | none =>
      let pending := R_SetTheShader strippedName lightmapIndex
      match FindShaderInShaderText env.corpus strippedName with
      | some ci =>
          if (env.corpus.getD ci dfltDef).parses then
            FinishShader st pending
          else
            FinishShader { st with log := Warn.parseHadErrors :: st.log }
              (R_SetDefaultShader pending)
      | none =>
          if env.images nm then
            FinishShader st (R_CreateDefaultShadingCmds pending)
          else
            FinishShader st (setDefaultShader pending)

/-- Embedding of RE_RegisterShader: oversized names return handle 0 without
resolving; a default flagged result is translated into handle 0. -/
def RE_RegisterShader (env : Env) (st : TrState) (name : List Char) :
    TrState × Nat :=
  if MAX_QPATH ≤ name.length then
    ({ st with log := Warn.nameExceedsMaxQpath :: st.log }, 0)
  else
    let r := R_FindShader env st (some name) LIGHTMAP_2D true
    if (r.1.shaders.getD r.2 dfltShader).defaultShader then (r.1, 0)
    else (r.1, (r.1.shaders.getD r.2 dfltShader).index)

/-- Embedding of RE_RegisterShaderNoMip: as RE_RegisterShader but with the
no-mip policy. -/
def RE_RegisterShaderNoMip (env : Env) (st : TrState) (name : List Char) :
    TrState × Nat :=
  if MAX_QPATH ≤ name.length then
    ({ st with log := Warn.nameExceedsMaxQpath :: st.log }, 0)
  else
    let r := R_FindShader env st (some name) LIGHTMAP_2D false
    if (r.1.shaders.getD r.2 dfltShader).defaultShader then (r.1, 0)
    else (r.1, (r.1.shaders.getD r.2 dfltShader).index)

/-- Embedding of R_RegisterShaderFromImage: the supplied name is hashed
raw (no extension stripping), the chain is walked with the swapped
condition order of the source, and on a miss a shader is synthesized
directly from the caller supplied image, never consulting the corpus.
The image argument itself is abstracted away inside
R_CreateDefaultShadingCmds; the mip policy does not affect this layer. -/
def R_RegisterShaderFromImage (st : TrState) (name : List Char)
    (lightmapIndex : Int) (mipRawImage : Bool) : TrState × Nat :=
  let hash := generateHashValue name FILE_HASH_SIZE
  match fromImageWalk st.shaders name lightmapIndex (st.buckets hash) with
  | some i => (st, (st.shaders.getD i dfltShader).index)
  | none =>
      let pending := R_SetTheShader name lightmapIndex
      FinishShader st (R_CreateDefaultShadingCmds pending)

/-- Definition following the words of claim C9, not the source: the cache
check first strips any extension from the supplied name, hashes the
stripped name, and walks the chain exactly as the cache walk of
R_FindShader does; only on a miss does it synthesize from the caller
supplied image. To be compared with R_RegisterShaderFromImage. -/
def registerByImageClaimed (st : TrState) (name : List Char)
    (lightmapIndex : Int) (mipRawImage : Bool) : TrState × Nat :=
  let strippedName := R_StripExtension name
  let hash := generateHashValue strippedName FILE_HASH_SIZE
  match cacheWalk st.shaders strippedName lightmapIndex (st.buckets hash) with
  | some i => (st, (st.shaders.getD i dfltShader).index)
  | none =>
      let pending := R_SetTheShader name lightmapIndex
      FinishShader st (R_CreateDefaultShadingCmds pending)

/-- Modelled from the spec: R_GetShaderByHandle returns the shader of a
handle, falling back to tr.defaultShader for out-of-range handles; the
default shader is the first realized object, at handle 0. -/
def R_GetShaderByHandle (st : TrState) (h : Nat) : Nat :=
  if h < st.shaders.length then h else st.defaultIdx

/-- Embedding of the source-side update loop of RE_RemapShader: walk the
chain and, on every case insensitive name match, set the remap reference
to the resolved target, or clear it when the object is the target. -/
def setRemaps (stripped : List Char) (sh2 : Nat) :
    List shader_t → List Nat → List shader_t
  | shaders, [] => shaders
  | shaders, i :: rest =>
      let shaders2 :=
        match shaders.get? i with
        | some sh =>
            if stricmpEq sh.name stripped then
              shaders.set i
                { sh with remappedShader := if i = sh2 then none else some sh2 }
            else shaders
        | none => shaders
      setRemaps stripped sh2 shaders2 rest

/-- Embedding of the final timeOffset assignment of RE_RemapShader: store
the parsed time offset on the resolved target object. -/
def setTimeOffset (shaders : List shader_t) (i : Nat) (t : List Char) :
    List shader_t :=
  match shaders.get? i with
  | some sh => shaders.set i { sh with timeOffset := some t }
  | none => shaders

/-- Embedding of the target resolution phase of RE_RemapShader: walk the
chain of the stripped new name by name only; when that fails (or finds
the default shader itself) resolve the new name in full, translate a
default flagged result to handle 0, look the handle up, and warn when
the outcome is still the default shader. -/
def remapResolveTarget (env : Env) (st : TrState) (newShaderName : List Char) :
    TrState × Nat :=
  let strippedName := R_StripExtension newShaderName
  let hash := generateHashValue strippedName FILE_HASH_SIZE
  let sh2 := match nameWalk st.shaders strippedName (st.buckets hash) with
    | some i => i
    | none => st.defaultIdx
  if sh2 = st.defaultIdx then
    let r := R_FindShader env st (some newShaderName) 0 true
    let sh := r.1.shaders.getD r.2 dfltShader
    let h := if sh.defaultShader then 0 else sh.index
    let sh2 := R_GetShaderByHandle r.1 h
    if sh2 = r.1.defaultIdx then
      ({ r.1 with log := Warn.remapShaderNotFound :: r.1.log }, sh2)
    else (r.1, sh2)
  else (st, sh2)

/-- Embedding of RE_RemapShader: resolve the target, update every cached
object whose stripped name matches the stripped source name, and store a
supplied time offset on the resolved target. -/
def RE_RemapShader (env : Env) (st : TrState) (shaderName newShaderName : List Char)
    (timeOffset : Option (List Char)) : TrState :=
  let r := remapResolveTarget env st newShaderName
  let st1 := r.1
  let sh2 := r.2
  let strippedName := R_StripExtension shaderName
  let hash := generateHashValue strippedName FILE_HASH_SIZE
  let st2 := { st1 with
    shaders := setRemaps strippedName sh2 st1.shaders (st1.buckets hash) }
  match timeOffset with
  | some t => { st2 with shaders := setTimeOffset st2.shaders sh2 t }
  | none => st2

/-- Public operations that can run against the registry between two
resolution calls. -/
inductive Op where
  | findShader : Option (List Char) → Int → Bool → Op
  | registerShader : List Char → Op
  | registerShaderNoMip : List Char → Op
  | registerFromImage : List Char → Int → Bool → Op
  | remapShader : List Char → List Char → Option (List Char) → Op

/-- Run one public operation for its state effect. -/
def runOp (env : Env) (st : TrState) : Op → TrState
  | .findShader n l m => (R_FindShader env st n l m).1
  | .registerShader n => (RE_RegisterShader env st n).1
  | .registerShaderNoMip n => (RE_RegisterShaderNoMip env st n).1
  | .registerFromImage n l m => (R_RegisterShaderFromImage st n l m).1
  | .remapShader a b t => RE_RemapShader env st a b t

/-- Run a list of public operations in order. -/
def runOps (env : Env) (st : TrState) (ops : List Op) : TrState :=
  ops.foldl (runOp env) st

/-- Names handed to R_RegisterShaderFromImage fit in a shader name buffer;
the public wrappers enforce this bound for every other entry point. -/
def OpSmall : Op → Prop
  | .registerFromImage n _ _ => n.length < MAX_QPATH
  | _ => True

/-- Well-formedness of the registry state: the default shader index is a
valid arena index, every chain entry is a valid arena index, every arena
object sits in the chain of the bucket its stored name hashes to, every
chain entry sits in the right bucket, and the stored handle of an object
equals its arena position. -/
structure Wf (st : TrState) : Prop where
  defaultValid : st.defaultIdx < st.shaders.length
  chainValid : ∀ b i, i ∈ st.buckets b → i < st.shaders.length
  chainComplete : ∀ i, i < st.shaders.length →
    i ∈ st.buckets (generateHashValue (st.shaders.getD i dfltShader).name FILE_HASH_SIZE)
  chainSound : ∀ b i, i ∈ st.buckets b →
    generateHashValue (st.shaders.getD i dfltShader).name FILE_HASH_SIZE = b
  indexCoherent : ∀ i, i < st.shaders.length → (st.shaders.getD i dfltShader).index = i

/-- Name of the internal default shader created at startup. -/
def defaultShaderName : List Char := ['<', 'd', 'e', 'f', 'a', 'u', 'l', 't', '>']

/-- Modelled from the spec: the process-wide default shader singleton,
realized first (handle 0) during initialization. -/
def defaultShader0 : shader_t :=
  { name := defaultShaderName, lightmapIndex := LIGHTMAP_NONE, index := 0,
    defaultShader := true, remappedShader := none, timeOffset := none }

/-- Modelled from the spec: the registry state right after initialization,
holding only the default shader, with no lightmaps loaded. -/
def initState : TrState :=
  { shaders := [defaultShader0],
    buckets := fun b =>
      if b = generateHashValue defaultShaderName FILE_HASH_SIZE then [0] else [],
    numLightmaps := 0, defaultIdx := 0, log := [] }

/-- Condition under which the cache walk of R_FindShader accepts a chain
entry. -/
def walkCond (shaders : List shader_t) (strippedName : List Char)
    (lightmapIndex : Int) (i : Nat) : Prop :=
  stricmpEq (shaders.getD i dfltShader).name strippedName ∧
  ((shaders.getD i dfltShader).lightmapIndex = lightmapIndex ∨
    (shaders.getD i dfltShader).defaultShader = true)

instance (shaders : List shader_t) (sn : List Char) (lm : Int) (i : Nat) :
    Decidable (walkCond shaders sn lm i) := by
  unfold walkCond; infer_instance

/-- The walks read only the name, lighting mode and default flag of each
arena slot. -/
def sameWalkView (s1 s2 : List shader_t) : Prop :=
  ∀ i : Nat, (s1.getD i dfltShader).name = (s2.getD i dfltShader).name ∧
    (s1.getD i dfltShader).lightmapIndex = (s2.getD i dfltShader).lightmapIndex ∧
    (s1.getD i dfltShader).defaultShader = (s2.getD i dfltShader).defaultShader

/-- A registry state holding, besides the default shader, one default
flagged shader stored under the name foo, obtained by resolving foo
against an empty corpus with no images. -/
def stFoo : TrState :=
  (R_FindShader env0 initState (some ['f', 'o', 'o']) LIGHTMAP_NONE true).1

/-- Chain discipline of reachable registries: behind a default flagged
object, no earlier (more recently inserted) chain entry carries a
case-insensitively equal name. Insertion order enforces this, because a
default flagged object absorbs every later lookup of its name. -/
def GlobalInv (st : TrState) : Prop :=
  ∀ b, List.Pairwise
    (fun j k => (st.shaders.getD k dfltShader).defaultShader = true →
      ¬ stricmpEq (st.shaders.getD j dfltShader).name
        (st.shaders.getD k dfltShader).name)
    (st.buckets b)

/-- The sticky-default invariant for one stripped name: a default flagged
object k stored under that name is what every cache walk for the name
returns, whatever lighting mode is requested. -/
def Inv (sn : List Char) (k : Nat) (st : TrState) : Prop :=
  k < st.shaders.length ∧
  (st.shaders.getD k dfltShader).defaultShader = true ∧
  stricmpEq (st.shaders.getD k dfltShader).name sn ∧
  ∀ m : Int, cacheWalk st.shaders sn m
    (st.buckets (generateHashValue sn FILE_HASH_SIZE)) = some k

theorem stricmpEq_refl (a : List Char) : stricmpEq a a := rfl

theorem stricmpEq_symm {a b : List Char} (h : stricmpEq a b) : stricmpEq b a :=
  h.symm

theorem stricmpEq_trans {a b c : List Char} (h1 : stricmpEq a b)
    (h2 : stricmpEq b c) : stricmpEq a c :=
  h1.trans h2

theorem hashLoop_congr_tolower :
    ∀ (a b : List Char), a.map Char.toLower = b.map Char.toLower →
      ∀ (i h : Nat), hashLoop a i h = hashLoop b i h := by
  intro a
  induction a with
  | nil =>
    intro b hb i h
    cases b with
    | nil => rfl
    | cons c r => simp at hb
  | cons c r ih =>
    intro b hb i h
    cases b with
    | nil => simp at hb
    | cons c2 r2 =>
      simp only [List.map_cons, List.cons.injEq] at hb
      simp only [hashLoop, hb.1]
      split
      · rfl
      · exact ih r2 hb.2 _ _

theorem generateHashValue_congr_tolower {a b : List Char}
    (h : a.map Char.toLower = b.map Char.toLower) (size : Nat) :
    generateHashValue a size = generateHashValue b size := by
  unfold generateHashValue
  rw [hashLoop_congr_tolower a b h]

theorem generateHashValue_stricmpEq {a b : List Char} (h : stricmpEq a b)
    (size : Nat) : generateHashValue a size = generateHashValue b size :=
  generateHashValue_congr_tolower h size

theorem hashLoop_backslash :
    ∀ (a : List Char) (i h : Nat),
      hashLoop (a.map (fun c => if c = '\\' then '/' else c)) i h =
        hashLoop a i h := by
  intro a
  induction a with
  | nil => intro i h; rfl
  | cons c r ih =>
    intro i h
    by_cases hc : c = '\\'
    · subst hc
      simp only [List.map_cons, if_pos rfl, hashLoop]
      norm_num [PATH_SEP]
      exact ih _ _
    · simp only [List.map_cons, if_neg hc, hashLoop]
      split
      · rfl
      · exact ih _ _

theorem hashLoop_ext :
    ∀ (a : List Char), (∀ c ∈ a, c.toLower ≠ '.') →
      ∀ (t : List Char) (i h : Nat),
        hashLoop (a ++ '.' :: t) i h = hashLoop a i h := by
  intro a
  induction a with
  | nil =>
    intro _ t i h
    simp [hashLoop]
  | cons c r ih =>
    intro hnd t i h
    have hc : c.toLower ≠ '.' := hnd c (List.mem_cons_self c r)
    simp only [List.cons_append, hashLoop, if_neg hc]
    exact ih (fun d hd => hnd d (List.mem_cons_of_mem c hd)) t _ _

theorem generateHashValue_lt {fname : List Char} {size : Nat} (h : 0 < size) :
    generateHashValue fname size < size := by
  unfold generateHashValue
  calc (hashLoop fname 0 0 ^^^ (hashLoop fname 0 0 >>> 10) ^^^
          (hashLoop fname 0 0 >>> 20)) &&& (size - 1) ≤ size - 1 :=
        Nat.and_le_right
    _ < size := Nat.sub_lt h Nat.one_pos

theorem generateHashValue_masked (fname : List Char) (size : Nat) :
    generateHashValue fname size &&& (size - 1) = generateHashValue fname size := by
  unfold generateHashValue
  rw [Nat.and_assoc, Nat.and_self]

/-- C5: generateHashValue is deterministic (it is a pure function of its
arguments); names that differ only in ASCII letter case hash to the same
bucket; replacing backslashes by forward slashes (the platform separator
already being the forward slash) does not change the bucket; appending a
suffix that starts at the first dot does not change the bucket; and the
result is masked against size - 1, hence below the table size. -/
theorem C5_hash_invariances (size : Nat) (a b t : List Char) :
    (a.map Char.toLower = b.map Char.toLower →
      generateHashValue a size = generateHashValue b size) ∧
    generateHashValue (a.map (fun c => if c = '\\' then '/' else c)) size =
      generateHashValue a size ∧
    ((∀ c ∈ a, c.toLower ≠ '.') →
      generateHashValue (a ++ '.' :: t) size = generateHashValue a size) ∧
    generateHashValue a size &&& (size - 1) = generateHashValue a size ∧
    (0 < size → generateHashValue a size < size) := by
  refine ⟨fun h => generateHashValue_congr_tolower h size, ?_, ?_, ?_, ?_⟩
  · unfold generateHashValue
    rw [hashLoop_backslash]
  · intro hnd
    unfold generateHashValue
    rw [hashLoop_ext a hnd t]
  · exact generateHashValue_masked a size
  · exact fun h => generateHashValue_lt h

/-- Witness for C5 at concrete inputs: the names differ in case, in
separator style and in extension, and all hash to the same bucket of a
1024 entry table. -/
theorem C5_hash_invariances_witness :
    (['t', 'E', 'x'].map Char.toLower = ['T', 'e', 'X'].map Char.toLower ∧
      generateHashValue ['t', 'E', 'x'] 1024 =
        generateHashValue ['T', 'e', 'X'] 1024) ∧
    generateHashValue ['a', '\\', 'b'] 1024 =
      generateHashValue ['a', '/', 'b'] 1024 ∧
    generateHashValue (['t', 'E', 'x'] ++ '.' :: ['t', 'g', 'a']) 1024 =
      generateHashValue ['t', 'E', 'x'] 1024 ∧
    (0 < 1024 ∧ generateHashValue ['t', 'E', 'x'] 1024 < 1024) := by
  have h1 := C5_hash_invariances 1024 ['t', 'E', 'x'] ['T', 'e', 'X'] ['t', 'g', 'a']
  have h2 := C5_hash_invariances 1024 ['a', '\\', 'b'] [] []
  refine ⟨⟨by decide, h1.1 (by decide)⟩, ?_, h1.2.2.1 (by decide),
    by decide, h1.2.2.2.2 (by decide)⟩
  have := h2.2.1
  simpa using this

/-- C4 counterexample: the lightmap index -1 (the dynamic-diffuse sentinel)
is negative and is not the screen-space sentinel, yet R_FindShader passes
it through unchanged and prints no diagnostic, contradicting the claim
that every negative index other than the screen-space sentinel downgrades
to per-vertex-color with a diagnostic. -/
theorem C4_clamp_counterexample :
    (-1 : Int) < 0 ∧ (-1 : Int) ≠ LIGHTMAP_2D ∧
    clampLightmapIndex 0 (-1) = (-1, false) ∧
    ¬ ((clampLightmapIndex 0 (-1)).1 = LIGHTMAP_BY_VERTEX ∧
        (clampLightmapIndex 0 (-1)).2 = true) := by
  decide

/-!
The script corpus, after the loader has concatenated and compressed the
shader files, is a sequence of definitions of the form name { body }.
The external tokenizer (R_ParseExt) and brace skipper (SkipBracedSection)
are modelled at that interface: the corpus is a list of definitions, a
text cursor that sits at the start of the name token of definition i (the
oldp pointer recorded by pass 2) is the index i, and the cursor returned
after consuming the name token, which sits at the opening brace of
definition i, is likewise rendered as i in the Option result.
-/

theorem foldl_pass1 (l : List ShaderDef) (f : Nat → Nat) (b : Nat) :
    (l.foldl pass1Step f) b =
      f b + l.countP (fun d => generateHashValue d.name MAX_SHADERTEXT_HASH == b) := by
  induction l generalizing f with
  | nil => simp
  | cons d r ih =>
    rw [List.foldl_cons, ih, List.countP_cons]
    simp only [pass1Step]
    by_cases hb : b = generateHashValue d.name MAX_SHADERTEXT_HASH
    · simp only [if_pos hb, hb, beq_self_eq_true, if_pos]
      omega
    · have : (generateHashValue d.name MAX_SHADERTEXT_HASH == b) = false := by
        simp [beq_iff_eq]
        exact fun h => hb h.symm
      simp [if_neg hb, this]

theorem foldl_pass2 (l : List (Nat × ShaderDef)) (g : Nat → List Nat) (b : Nat) :
    (l.foldl pass2Step g) b =
      g b ++ (l.filter
        (fun p => generateHashValue p.2.name MAX_SHADERTEXT_HASH == b)).map Prod.fst := by
  induction l generalizing g with
  | nil => simp
  | cons p r ih =>
    rw [List.foldl_cons, ih, List.filter_cons]
    simp only [pass2Step]
    by_cases hb : b = generateHashValue p.2.name MAX_SHADERTEXT_HASH
    · simp only [if_pos hb, hb, beq_self_eq_true, if_pos, List.map_cons]
      simp
    · have : (generateHashValue p.2.name MAX_SHADERTEXT_HASH == b) = false := by
        simp [beq_iff_eq]
        exact fun h => hb h.symm
      simp [if_neg hb, this]

theorem shaderTextHashTableSizes_spec (corpus : List ShaderDef) (b : Nat) :
    shaderTextHashTableSizes corpus b =
      corpus.countP (fun d => generateHashValue d.name MAX_SHADERTEXT_HASH == b) := by
  unfold shaderTextHashTableSizes
  rw [foldl_pass1]
  simp

theorem shaderTextHashTable_spec (corpus : List ShaderDef) (b : Nat) :
    shaderTextHashTable corpus b =
      (corpus.enum.filter
        (fun p => generateHashValue p.2.name MAX_SHADERTEXT_HASH == b)).map Prod.fst := by
  unfold shaderTextHashTable
  rw [foldl_pass2]
  simp

theorem countP_enumFrom (p : ShaderDef → Bool) :
    ∀ (l : List ShaderDef) (n : Nat),
      ((List.enumFrom n l).filter (fun q => p q.2)).length = l.countP p := by
  intro l
  induction l with
  | nil => intro n; simp
  | cons d r ih =>
    intro n
    rw [List.enumFrom_cons, List.filter_cons, List.countP_cons]
    by_cases hp : p d
    · simp [hp, ih]
    · simp [hp, ih]

theorem shaderTextHashTable_length (corpus : List ShaderDef) (b : Nat) :
    (shaderTextHashTable corpus b).length = shaderTextHashTableSizes corpus b := by
  rw [shaderTextHashTable_spec, shaderTextHashTableSizes_spec, List.length_map]
  exact countP_enumFrom
    (fun d => generateHashValue d.name MAX_SHADERTEXT_HASH == b) corpus 0

theorem sum_sizes (corpus : List ShaderDef) :
    ∑ b ∈ Finset.range MAX_SHADERTEXT_HASH, shaderTextHashTableSizes corpus b =
      corpus.length := by
  induction corpus with
  | nil => simp [shaderTextHashTableSizes_spec]
  | cons d r ih =>
    have hmem : generateHashValue d.name MAX_SHADERTEXT_HASH ∈
        Finset.range MAX_SHADERTEXT_HASH :=
      Finset.mem_range.mpr (generateHashValue_lt (by norm_num [MAX_SHADERTEXT_HASH]))
    simp only [shaderTextHashTableSizes_spec, List.countP_cons] at ih ⊢
    have hsplit : ∀ b : Nat,
        r.countP (fun e => generateHashValue e.name MAX_SHADERTEXT_HASH == b) +
          (if generateHashValue d.name MAX_SHADERTEXT_HASH == b then 1 else 0) =
        r.countP (fun e => generateHashValue e.name MAX_SHADERTEXT_HASH == b) +
          (if generateHashValue d.name MAX_SHADERTEXT_HASH = b then 1 else 0) := by
      intro b
      by_cases hb : generateHashValue d.name MAX_SHADERTEXT_HASH = b
      · simp [hb]
      · simp [hb]
    rw [Finset.sum_congr rfl (fun b _ => hsplit b), Finset.sum_add_distrib,
      Finset.sum_ite_eq, if_pos hmem, ih, List.length_cons]

theorem getD_of_lt {α : Type} (l : List α) (n : Nat) (d : α) (h : n < l.length) :
    l.getD n d = l[n] := by
  simp [List.getD_eq_getElem?_getD, List.getElem?_eq_getElem h]

theorem mem_shaderTextHashTable {corpus : List ShaderDef} {j : Nat}
    (hj : j < corpus.length) :
    j ∈ shaderTextHashTable corpus
      (generateHashValue corpus[j].name MAX_SHADERTEXT_HASH) := by
  rw [shaderTextHashTable_spec]
  refine List.mem_map.mpr ⟨(j, corpus[j]), List.mem_filter.mpr ⟨?_, ?_⟩, rfl⟩
  · exact List.mk_mem_enum_iff_getElem?.mpr (List.getElem?_eq_getElem hj)
  · simp

theorem mem_shaderTextHashTable_bound {corpus : List ShaderDef} {b j : Nat}
    (hj : j ∈ shaderTextHashTable corpus b) : j < corpus.length := by
  rw [shaderTextHashTable_spec] at hj
  obtain ⟨p, hp, rfl⟩ := List.mem_map.mp hj
  have hmem := (List.mem_filter.mp hp).1
  have := List.mem_enum_iff_getElem?.mp hmem
  exact (List.getElem?_eq_some.mp this).1

theorem find?_some_pred {α : Type} {p : α → Bool} {l : List α} {a : α}
    (h : l.find? p = some a) : p a = true :=
  List.find?_some h

theorem FindShaderInShaderText_found {corpus : List ShaderDef} {qn : List Char}
    (hex : ∃ d ∈ corpus, stricmpEq d.name qn) :
    ∃ i, i < corpus.length ∧
      (shaderTextHashTable corpus (generateHashValue qn MAX_SHADERTEXT_HASH)).find?
        (fun i => decide (stricmpEq (corpus.getD i dfltDef).name qn)) = some i ∧
      FindShaderInShaderText corpus qn = some i ∧
      stricmpEq (corpus.getD i dfltDef).name qn := by
  obtain ⟨d, hd, hs⟩ := hex
  obtain ⟨j, hj, rfl⟩ := List.mem_iff_getElem.mp hd
  have hhash : generateHashValue corpus[j].name MAX_SHADERTEXT_HASH =
      generateHashValue qn MAX_SHADERTEXT_HASH :=
    generateHashValue_stricmpEq hs _
  have hjmem : j ∈ shaderTextHashTable corpus
      (generateHashValue qn MAX_SHADERTEXT_HASH) := by
    rw [← hhash]; exact mem_shaderTextHashTable hj
  have hsome : ((shaderTextHashTable corpus
      (generateHashValue qn MAX_SHADERTEXT_HASH)).find?
        (fun i => decide (stricmpEq (corpus.getD i dfltDef).name qn))).isSome := by
    rw [List.find?_isSome]
    refine ⟨j, hjmem, ?_⟩
    rw [getD_of_lt _ _ _ hj]
    exact decide_eq_true hs
  obtain ⟨i, hi⟩ := Option.isSome_iff_exists.mp hsome
  have himem : i ∈ shaderTextHashTable corpus
      (generateHashValue qn MAX_SHADERTEXT_HASH) := List.mem_of_find?_eq_some hi
  have hilt : i < corpus.length := mem_shaderTextHashTable_bound himem
  have hip := find?_some_pred hi
  simp only [decide_eq_true_eq] at hip
  refine ⟨i, hilt, hi, ?_, hip⟩
  simp only [FindShaderInShaderText]
  rw [hi]

/-- C6: after the two pass build, every bucket of the corpus index has
exactly as many offset slots as definitions hashing to that bucket in
pass 1 (the pass 1 counter itself counting exactly those definitions),
the single allocation of one extra null sentinel slot per bucket has
exactly totalDefinitions + tableSize slots, every definition name present
in the corpus is found by FindShaderInShaderText with a cursor at that
definition (the index i encodes the cursor sitting at the opening brace
of definition i, immediately after its name token), the bucket walk
itself finds it, and the linear corpus scan is consulted only when the
bucket walk fails. -/
theorem C6_corpus_index (corpus : List ShaderDef) (qn : List Char) :
    (∀ b, (shaderTextHashTable corpus b).length = shaderTextHashTableSizes corpus b) ∧
    (∀ b, shaderTextHashTableSizes corpus b =
      corpus.countP (fun d => generateHashValue d.name MAX_SHADERTEXT_HASH == b)) ∧
    (∑ b ∈ Finset.range MAX_SHADERTEXT_HASH, (shaderTextHashTableSizes corpus b + 1)) =
      corpus.length + MAX_SHADERTEXT_HASH ∧
    ((∃ d ∈ corpus, stricmpEq d.name qn) →
      ∃ i, i < corpus.length ∧
        (shaderTextHashTable corpus (generateHashValue qn MAX_SHADERTEXT_HASH)).find?
          (fun i => decide (stricmpEq (corpus.getD i dfltDef).name qn)) = some i ∧
        FindShaderInShaderText corpus qn = some i ∧
        stricmpEq (corpus.getD i dfltDef).name qn) ∧
    (∀ i, (shaderTextHashTable corpus (generateHashValue qn MAX_SHADERTEXT_HASH)).find?
        (fun i => decide (stricmpEq (corpus.getD i dfltDef).name qn)) = some i →
      FindShaderInShaderText corpus qn = some i) := by
  refine ⟨shaderTextHashTable_length corpus, shaderTextHashTableSizes_spec corpus,
    ?_, FindShaderInShaderText_found, ?_⟩
  · rw [Finset.sum_add_distrib, sum_sizes, Finset.sum_const, Finset.card_range,
      smul_eq_mul, mul_one]
  · intro i hi
    simp only [FindShaderInShaderText]
    rw [hi]

/-- Witness for C6 at a concrete corpus of two definitions: the query
differs from the stored name only in case and is found by the bucket
walk at offset 0. -/
theorem C6_corpus_index_witness :
    (ShaderDef.mk ['g', 'l', 'a', 's', 's'] true ∈
      [ShaderDef.mk ['g', 'l', 'a', 's', 's'] true,
       ShaderDef.mk ['m', 'e', 't', 'a', 'l'] true] ∧
      stricmpEq (ShaderDef.mk ['g', 'l', 'a', 's', 's'] true).name
        ['G', 'l', 'a', 's', 'S']) ∧
    FindShaderInShaderText
      [ShaderDef.mk ['g', 'l', 'a', 's', 's'] true,
       ShaderDef.mk ['m', 'e', 't', 'a', 'l'] true] ['G', 'l', 'a', 's', 'S'] =
      some 0 := by
  refine ⟨⟨by decide, by decide⟩, ?_⟩
  obtain ⟨i, hlt, _, hfind, _⟩ :=
    (C6_corpus_index
      [ShaderDef.mk ['g', 'l', 'a', 's', 's'] true,
       ShaderDef.mk ['m', 'e', 't', 'a', 'l'] true]
      ['G', 'l', 'a', 's', 'S']).2.2.2.1 (by decide)
  have hi : i = 0 := by
    have h2 : FindShaderInShaderText
        [ShaderDef.mk ['g', 'l', 'a', 's', 's'] true,
         ShaderDef.mk ['m', 'e', 't', 'a', 'l'] true] ['G', 'l', 'a', 's', 'S'] =
        some 0 := by decide
    exact Option.some.inj (hfind.symm.trans h2)
  exact hi ▸ hfind

theorem wf_initState : Wf initState := by
  constructor
  · simp [initState]
  · intro b i hi
    simp only [initState] at hi ⊢
    split at hi
    · simp only [List.mem_singleton] at hi
      simp [hi]
    · simp at hi
  · intro i hi
    simp only [initState, List.length_singleton] at hi
    interval_cases i
    simp [initState, defaultShader0]
  · intro b i hi
    simp only [initState] at hi ⊢
    split at hi
    · rename_i hb
      simp only [List.mem_singleton] at hi
      subst hi
      simp [defaultShader0, hb]
    · simp at hi
  · intro i hi
    simp only [initState, List.length_singleton] at hi
    interval_cases i
    simp [initState, defaultShader0]

theorem getD_append_left {l : List shader_t} {i : Nat} (p : shader_t)
    (h : i < l.length) : (l ++ [p]).getD i dfltShader = l.getD i dfltShader := by
  rw [getD_of_lt _ _ _ h, getD_of_lt _ _ _ (by simp; omega),
    List.getElem_append_left h]

theorem getD_append_len {l : List shader_t} (p : shader_t) :
    (l ++ [p]).getD l.length dfltShader = p := by
  rw [getD_of_lt _ _ _ (by simp)]
  simp

theorem getD_set_self {l : List shader_t} {i : Nat} (a : shader_t)
    (h : i < l.length) : (l.set i a).getD i dfltShader = a := by
  rw [getD_of_lt _ _ _ (by simpa using h)]
  simp [List.getElem_set_self]

theorem getD_set_ne {l : List shader_t} {i j : Nat} (a : shader_t)
    (h : i ≠ j) : (l.set i a).getD j dfltShader = l.getD j dfltShader := by
  by_cases hj : j < l.length
  · rw [getD_of_lt _ _ _ (by simpa using hj), getD_of_lt _ _ _ hj,
      List.getElem_set_ne h]
  · have hj1 : l.length ≤ j := Nat.le_of_not_lt hj
    have hj2 : (l.set i a).length ≤ j := by simpa using hj1
    rw [List.getD_eq_getElem?_getD, List.getD_eq_getElem?_getD,
      List.getElem?_eq_none hj2, List.getElem?_eq_none hj1]

theorem cacheWalk_nil (shaders : List shader_t) (sn : List Char) (lm : Int) :
    cacheWalk shaders sn lm [] = none := rfl

theorem cacheWalk_cons (shaders : List shader_t) (sn : List Char) (lm : Int)
    (i : Nat) (rest : List Nat) :
    cacheWalk shaders sn lm (i :: rest) =
      if walkCond shaders sn lm i then some i
      else cacheWalk shaders sn lm rest := by
  simp only [cacheWalk, walkCond]

theorem cacheWalk_none_iff (shaders : List shader_t) (sn : List Char) (lm : Int) :
    ∀ chain : List Nat, cacheWalk shaders sn lm chain = none ↔
      ∀ i ∈ chain, ¬ walkCond shaders sn lm i := by
  intro chain
  induction chain with
  | nil => simp [cacheWalk_nil]
  | cons i rest ih =>
    rw [cacheWalk_cons]
    by_cases hc : walkCond shaders sn lm i
    · simp [hc]
    · simp [hc, ih]

theorem cacheWalk_eq_some (shaders : List shader_t) (sn : List Char) (lm : Int) :
    ∀ (chain : List Nat) (i : Nat), cacheWalk shaders sn lm chain = some i →
      ∃ l1 l2, chain = l1 ++ i :: l2 ∧ (∀ j ∈ l1, ¬ walkCond shaders sn lm j) ∧
        walkCond shaders sn lm i := by
  intro chain
  induction chain with
  | nil => intro i h; simp [cacheWalk_nil] at h
  | cons j rest ih =>
    intro i h
    rw [cacheWalk_cons] at h
    by_cases hc : walkCond shaders sn lm j
    · rw [if_pos hc] at h
      obtain rfl : j = i := by simpa using h
      exact ⟨[], rest, rfl, by simp, hc⟩
    · rw [if_neg hc] at h
      obtain ⟨l1, l2, rfl, hl1, hi⟩ := ih i h
      exact ⟨j :: l1, l2, rfl, by
        intro x hx
        rcases List.mem_cons.mp hx with rfl | hx
        · exact hc
        · exact hl1 x hx, hi⟩

theorem cacheWalk_mem {shaders : List shader_t} {sn : List Char} {lm : Int}
    {chain : List Nat} {i : Nat} (h : cacheWalk shaders sn lm chain = some i) :
    i ∈ chain ∧ walkCond shaders sn lm i := by
  obtain ⟨l1, l2, rfl, _, hi⟩ := cacheWalk_eq_some shaders sn lm chain i h
  exact ⟨by simp, hi⟩

theorem walkCond_congr_view {s1 s2 : List shader_t} (h : sameWalkView s1 s2)
    (sn : List Char) (lm : Int) (i : Nat) :
    walkCond s1 sn lm i ↔ walkCond s2 sn lm i := by
  obtain ⟨h1, h2, h3⟩ := h i
  unfold walkCond
  rw [h1, h2, h3]

theorem cacheWalk_congr_view {s1 s2 : List shader_t} (h : sameWalkView s1 s2)
    (sn : List Char) (lm : Int) :
    ∀ chain : List Nat, cacheWalk s1 sn lm chain = cacheWalk s2 sn lm chain := by
  intro chain
  induction chain with
  | nil => simp [cacheWalk_nil]
  | cons i rest ih =>
    rw [cacheWalk_cons, cacheWalk_cons, ih]
    by_cases hc : walkCond s1 sn lm i
    · rw [if_pos hc, if_pos ((walkCond_congr_view h sn lm i).mp hc)]
    · rw [if_neg hc, if_neg (fun hx => hc ((walkCond_congr_view h sn lm i).mpr hx))]

theorem walkCond_congr_query {shaders : List shader_t} {q1 q2 : List Char}
    (h : stricmpEq q1 q2) (lm : Int) (i : Nat) :
    walkCond shaders q1 lm i ↔ walkCond shaders q2 lm i := by
  unfold walkCond
  constructor
  · rintro ⟨hs, hm⟩; exact ⟨stricmpEq_trans hs h, hm⟩
  · rintro ⟨hs, hm⟩; exact ⟨stricmpEq_trans hs (stricmpEq_symm h), hm⟩

theorem cacheWalk_congr_query {shaders : List shader_t} {q1 q2 : List Char}
    (h : stricmpEq q1 q2) (lm : Int) :
    ∀ chain : List Nat, cacheWalk shaders q1 lm chain = cacheWalk shaders q2 lm chain := by
  intro chain
  induction chain with
  | nil => simp [cacheWalk_nil]
  | cons i rest ih =>
    rw [cacheWalk_cons, cacheWalk_cons, ih]
    by_cases hc : walkCond shaders q1 lm i
    · rw [if_pos hc, if_pos ((walkCond_congr_query h lm i).mp hc)]
    · rw [if_neg hc, if_neg (fun hx => hc ((walkCond_congr_query h lm i).mpr hx))]

theorem cacheWalk_append_arena {shaders : List shader_t} {p : shader_t}
    {sn : List Char} {lm : Int} :
    ∀ chain : List Nat, (∀ i ∈ chain, i < shaders.length) →
      cacheWalk (shaders ++ [p]) sn lm chain = cacheWalk shaders sn lm chain := by
  intro chain
  induction chain with
  | nil => simp [cacheWalk_nil]
  | cons i rest ih =>
    intro hb
    have hi : i < shaders.length := hb i (by simp)
    have hview : (shaders ++ [p]).getD i dfltShader = shaders.getD i dfltShader :=
      getD_append_left p hi
    rw [cacheWalk_cons, cacheWalk_cons, ih (fun j hj => hb j (by simp [hj]))]
    unfold walkCond
    simp only [hview]

theorem fromImageWalk_eq_cacheWalk (shaders : List shader_t) (n : List Char)
    (lm : Int) : ∀ chain : List Nat,
      fromImageWalk shaders n lm chain = cacheWalk shaders n lm chain := by
  intro chain
  induction chain with
  | nil => rfl
  | cons i rest ih =>
    rw [cacheWalk_cons]
    simp only [fromImageWalk, ih]
    by_cases hc : walkCond shaders n lm i
    · rw [if_pos ⟨hc.2, hc.1⟩, if_pos hc]
    · rw [if_neg (fun hx => hc ⟨hx.2, hx.1⟩), if_neg hc]

theorem strip_length_le (nm : List Char) :
    (R_StripExtension nm).length ≤ MAX_QPATH - 1 := by
  unfold R_StripExtension
  exact List.length_take_le _ _

theorem strip_take (nm : List Char) :
    (R_StripExtension nm).take (MAX_QPATH - 1) = R_StripExtension nm :=
  List.take_of_length_le (strip_length_le nm)

theorem setTheShader_name (nm : List Char) (lm : Int) :
    (R_SetTheShader (R_StripExtension nm) lm).name = R_StripExtension nm := by
  simp [R_SetTheShader, strip_take]

theorem updateHashTable_at (buckets : Nat → List Nat) (name : List Char) (i : Nat) :
    R_UpdateShaderHashTable buckets name i
      (generateHashValue name FILE_HASH_SIZE) = i :: buckets (generateHashValue name FILE_HASH_SIZE) := by
  simp [R_UpdateShaderHashTable]

theorem updateHashTable_ne (buckets : Nat → List Nat) (name : List Char) (i b : Nat)
    (h : b ≠ generateHashValue name FILE_HASH_SIZE) :
    R_UpdateShaderHashTable buckets name i b = buckets b := by
  simp [R_UpdateShaderHashTable, h]

/-- Case analysis of R_FindShader with a non-null name: either the cache
walk hits and the state keeps its arena and chains, or it misses and
exactly one new object, named by the stripped name, is appended and
pushed onto the head of its bucket chain. -/
theorem R_FindShader_cases (env : Env) (st : TrState) (nm : List Char)
    (lm : Int) (mip : Bool) :
    (R_FindShader env st (some nm) lm mip).1.numLightmaps = st.numLightmaps ∧
    (R_FindShader env st (some nm) lm mip).1.defaultIdx = st.defaultIdx ∧
    ((cacheWalk st.shaders (R_StripExtension nm)
        (clampLightmapIndex st.numLightmaps lm).1
        (st.buckets (generateHashValue (R_StripExtension nm) FILE_HASH_SIZE)) =
          some (R_FindShader env st (some nm) lm mip).2 ∧
      (R_FindShader env st (some nm) lm mip).1.shaders = st.shaders ∧
      (R_FindShader env st (some nm) lm mip).1.buckets = st.buckets) ∨
     (cacheWalk st.shaders (R_StripExtension nm)
        (clampLightmapIndex st.numLightmaps lm).1
        (st.buckets (generateHashValue (R_StripExtension nm) FILE_HASH_SIZE)) = none ∧
      (R_FindShader env st (some nm) lm mip).2 = st.shaders.length ∧
      ∃ p : shader_t,
        p.name = R_StripExtension nm ∧
        p.index = st.shaders.length ∧
        (p.lightmapIndex = (clampLightmapIndex st.numLightmaps lm).1 ∨
          p.defaultShader = true) ∧
        (FindShaderInShaderText env.corpus (R_StripExtension nm) = none →
          env.images nm = false → p.defaultShader = true) ∧
        (R_FindShader env st (some nm) lm mip).1.shaders = st.shaders ++ [p] ∧
        (R_FindShader env st (some nm) lm mip).1.buckets =
          R_UpdateShaderHashTable st.buckets (R_StripExtension nm)
            st.shaders.length)) := by
  have hst : R_SetTheShader (R_StripExtension nm) (clampLightmapIndex st.numLightmaps lm).1 =
      { name := R_StripExtension nm,
        lightmapIndex := (clampLightmapIndex st.numLightmaps lm).1, index := 0,
        defaultShader := false, remappedShader := none, timeOffset := none } := by
    simp [R_SetTheShader, strip_take]
  cases hb : (clampLightmapIndex st.numLightmaps lm).2 <;>
  (simp only [R_FindShader, hst, hb, Bool.false_eq_true,
      if_false, if_true, ite_false, ite_true]
   cases hcw : cacheWalk st.shaders (R_StripExtension nm)
      (clampLightmapIndex st.numLightmaps lm).1
      (st.buckets (generateHashValue (R_StripExtension nm) FILE_HASH_SIZE)) with
   | some i => exact ⟨rfl, rfl, Or.inl ⟨rfl, rfl, rfl⟩⟩
   | none =>
     cases hft : FindShaderInShaderText env.corpus (R_StripExtension nm) with
     | some ci =>
       cases hp : (env.corpus.getD ci dfltDef).parses <;>
         simp only [hp, Bool.false_eq_true, if_false, if_true,
           ite_false, ite_true, FinishShader, R_SetDefaultShader] <;>
         refine ⟨trivial, trivial, Or.inr ⟨trivial, trivial, ?_⟩⟩
       · exact ⟨⟨R_StripExtension nm, (clampLightmapIndex st.numLightmaps lm).1,
             st.shaders.length, true, none, none⟩,
           rfl, rfl, Or.inr rfl, fun h => Option.noConfusion h, rfl, trivial⟩
       · exact ⟨⟨R_StripExtension nm, (clampLightmapIndex st.numLightmaps lm).1,
             st.shaders.length, false, none, none⟩,
           rfl, rfl, Or.inl rfl, fun h => Option.noConfusion h, rfl, trivial⟩
     | none =>
       cases hi : env.images nm <;>
         simp only [hi, Bool.false_eq_true, if_false, if_true,
           ite_false, ite_true, FinishShader, R_CreateDefaultShadingCmds,
           setDefaultShader] <;>
         refine ⟨trivial, trivial, Or.inr ⟨trivial, trivial, ?_⟩⟩
       · exact ⟨⟨R_StripExtension nm, LIGHTMAP_NONE,
             st.shaders.length, true, none, none⟩,
           rfl, rfl, Or.inr rfl, fun _ _ => rfl, rfl, trivial⟩
       · exact ⟨⟨R_StripExtension nm, (clampLightmapIndex st.numLightmaps lm).1,
             st.shaders.length, false, none, none⟩,
           rfl, rfl, Or.inl rfl, fun _ h => Bool.noConfusion h, rfl, trivial⟩)

/-- C3: cache-hit idempotence of R_FindShader. For every name, lighting
mode and mip policy, calling R_FindShader twice with identical arguments
returns the identical cached shader object the second time, and the
second call performs no new realization: the shader arena and the cache
chains are unchanged. -/
theorem C3_cache_hit_idempotence (env : Env) (st : TrState) (nm : List Char)
    (lm : Int) (mip : Bool) :
    (R_FindShader env (R_FindShader env st (some nm) lm mip).1 (some nm) lm mip).2 =
      (R_FindShader env st (some nm) lm mip).2 ∧
    (R_FindShader env (R_FindShader env st (some nm) lm mip).1 (some nm) lm mip).1.shaders =
      (R_FindShader env st (some nm) lm mip).1.shaders ∧
    (R_FindShader env (R_FindShader env st (some nm) lm mip).1 (some nm) lm mip).1.buckets =
      (R_FindShader env st (some nm) lm mip).1.buckets := by
  obtain ⟨hnl, hdi, hcase⟩ := R_FindShader_cases env st nm lm mip
  obtain ⟨hnl2, hdi2, hcase2⟩ :=
    R_FindShader_cases env (R_FindShader env st (some nm) lm mip).1 nm lm mip
  rcases hcase with ⟨hw, hs, hbk⟩ | ⟨hw, hk, p, hpn, hpi, hplm, hpd, hs, hbk⟩
  · rw [hnl, hs, hbk] at hcase2
    rcases hcase2 with ⟨hw2, hs2, hbk2⟩ | ⟨hw2, _, _⟩
    · refine ⟨Option.some.inj (hw2.symm.trans hw), ?_, ?_⟩
      · rw [hs2, hs]
      · rw [hbk2, hbk]
    · rw [hw] at hw2
      simp at hw2
  · have hhead : cacheWalk (R_FindShader env st (some nm) lm mip).1.shaders
        (R_StripExtension nm)
        (clampLightmapIndex (R_FindShader env st (some nm) lm mip).1.numLightmaps lm).1
        ((R_FindShader env st (some nm) lm mip).1.buckets
          (generateHashValue (R_StripExtension nm) FILE_HASH_SIZE)) =
        some st.shaders.length := by
      have hcond : walkCond (st.shaders ++ [p]) (R_StripExtension nm)
          (clampLightmapIndex st.numLightmaps lm).1 st.shaders.length := by
        unfold walkCond
        rw [getD_append_len, hpn]
        exact ⟨stricmpEq_refl _, hplm⟩
      rw [hnl, hs, hbk, updateHashTable_at, cacheWalk_cons, if_pos hcond]
    rcases hcase2 with ⟨hw2, hs2, hbk2⟩ | ⟨hw2, _, _⟩
    · refine ⟨(Option.some.inj (hhead.symm.trans hw2)).symm.trans hk.symm, hs2, hbk2⟩
    · rw [hw2] at hhead
      simp at hhead

/-- C1: R_FindShader is total. It always returns a valid arena index; a
null name logs a warning and returns exactly the process-wide default
shader singleton; and on a fresh resolution (cache miss) where neither a
corpus definition nor an image exists for the name, the returned object
is realized with the default flag set rather than failing. -/
theorem C1_find_shader_total (env : Env) (st : TrState) (name : Option (List Char))
    (lm : Int) (mip : Bool) (hwf : Wf st) :
    (R_FindShader env st name lm mip).2 <
      (R_FindShader env st name lm mip).1.shaders.length ∧
    (name = none →
      (R_FindShader env st name lm mip).2 = st.defaultIdx ∧
      (R_FindShader env st name lm mip).1.shaders = st.shaders ∧
      Warn.nullName ∈ (R_FindShader env st name lm mip).1.log) ∧
    (∀ nm, name = some nm →
      cacheWalk st.shaders (R_StripExtension nm)
        (clampLightmapIndex st.numLightmaps lm).1
        (st.buckets (generateHashValue (R_StripExtension nm) FILE_HASH_SIZE)) = none →
      FindShaderInShaderText env.corpus (R_StripExtension nm) = none →
      env.images nm = false →
      ((R_FindShader env st name lm mip).1.shaders.getD
        (R_FindShader env st name lm mip).2 dfltShader).defaultShader = true) := by
  cases name with
  | none =>
    refine ⟨hwf.defaultValid, fun _ => ⟨rfl, rfl, ?_⟩, fun nm h => Option.noConfusion h⟩
    simp [R_FindShader]
  | some nm =>
    obtain ⟨hnl, hdi, hcase⟩ := R_FindShader_cases env st nm lm mip
    rcases hcase with ⟨hw, hs, hbk⟩ | ⟨hw, hk, p, hpn, hpi, hplm, hpd, hs, hbk⟩
    · refine ⟨?_, fun h => Option.noConfusion h, ?_⟩
      · rw [hs]
        exact hwf.chainValid _ _ (cacheWalk_mem hw).1
      · intro nm2 heq hwalk hft himg
        obtain rfl : nm = nm2 := Option.some.inj heq
        rw [hwalk] at hw
        simp at hw
    · refine ⟨?_, fun h => Option.noConfusion h, ?_⟩
      · rw [hs, hk]
        simp
      · intro nm2 heq hwalk hft himg
        obtain rfl : nm = nm2 := Option.some.inj heq
        rw [hs, hk, getD_append_len]
        exact hpd hft himg

/-- Witness for C1 at the freshly initialized registry with an empty
corpus and no images, for the name wall: the resolution yields a
default flagged object, and a null name yields the default shader. -/
theorem C1_find_shader_total_witness :
    Wf initState ∧
    ((R_FindShader env0 initState (some ['w', 'a', 'l', 'l']) 0 true).1.shaders.getD
      (R_FindShader env0 initState (some ['w', 'a', 'l', 'l']) 0 true).2
        dfltShader).defaultShader = true ∧
    (R_FindShader env0 initState none 0 true).2 = initState.defaultIdx := by
  refine ⟨wf_initState, ?_, ?_⟩
  · exact (C1_find_shader_total env0 initState (some ['w', 'a', 'l', 'l']) 0 true
      wf_initState).2.2 ['w', 'a', 'l', 'l'] rfl (by decide) (by decide) rfl
  · exact ((C1_find_shader_total env0 initState none 0 true wf_initState).2.1 rfl).1

theorem R_FindShader_log_clamp (env : Env) (st : TrState) (nm : List Char)
    (idx : Int) (mip : Bool)
    (hb : (clampLightmapIndex st.numLightmaps idx).2 = true) :
    Warn.invalidLightmapIndex ∈ (R_FindShader env st (some nm) idx mip).1.log := by
  simp only [R_FindShader, hb, if_true, ite_true]
  cases hcw : cacheWalk ({ st with log := Warn.invalidLightmapIndex :: st.log }).shaders
      (R_StripExtension nm) (clampLightmapIndex st.numLightmaps idx).1
      (({ st with log := Warn.invalidLightmapIndex :: st.log }).buckets
        (generateHashValue (R_StripExtension nm) FILE_HASH_SIZE)) with
  | some i => simp
  | none =>
    cases hft : FindShaderInShaderText env.corpus (R_StripExtension nm) with
    | some ci =>
        cases hp : (env.corpus.getD ci dfltDef).parses <;>
          simp only [hp, Bool.false_eq_true, if_false, ite_false, if_true, ite_true] <;>
          simp [FinishShader]
    | none =>
        cases hi : env.images nm <;>
          simp only [hi, Bool.false_eq_true, if_false, ite_false, if_true, ite_true] <;>
          simp [FinishShader]

/-- C4 amended: the clamp of R_FindShader sends a nonnegative lightmap
index at or beyond the number of lightmaps to per-vertex-color without a
diagnostic; it sends an index strictly below the screen-space sentinel
(LIGHTMAP_2D, the least reserved negative) to per-vertex-color with a
diagnostic that R_FindShader prints; and every other index, including
the reserved negative sentinels from LIGHTMAP_2D up to -1, passes
through unchanged with no diagnostic. -/
theorem C4_clamp_amended (env : Env) (st : TrState) (nm : List Char)
    (nL idx : Int) (mip : Bool) :
    (0 ≤ idx → nL ≤ idx →
      clampLightmapIndex nL idx = (LIGHTMAP_BY_VERTEX, false)) ∧
    (idx < LIGHTMAP_2D →
      clampLightmapIndex nL idx = (LIGHTMAP_BY_VERTEX, true)) ∧
    (LIGHTMAP_2D ≤ idx → idx < 0 → clampLightmapIndex nL idx = (idx, false)) ∧
    (0 ≤ idx → idx < nL → clampLightmapIndex nL idx = (idx, false)) ∧
    (idx < LIGHTMAP_2D →
      Warn.invalidLightmapIndex ∈ (R_FindShader env st (some nm) idx mip).1.log) := by
  refine ⟨?_, ?_, ?_, ?_, ?_⟩
  · intro h1 h2
    unfold clampLightmapIndex
    rw [if_pos ⟨h1, h2⟩]
  · intro h
    unfold clampLightmapIndex
    rw [if_neg, if_pos h]
    rintro ⟨h1, h2⟩
    unfold LIGHTMAP_2D at h
    omega
  · intro h1 h2
    unfold clampLightmapIndex
    rw [if_neg, if_neg (not_lt.mpr h1)]
    rintro ⟨h3, h4⟩
    omega
  · intro h1 h2
    unfold clampLightmapIndex
    rw [if_neg, if_neg]
    · unfold LIGHTMAP_2D
      omega
    · rintro ⟨h3, h4⟩
      omega
  · intro h
    refine R_FindShader_log_clamp env st nm idx mip ?_
    unfold clampLightmapIndex
    rw [if_neg, if_pos h]
    rintro ⟨h1, h2⟩
    unfold LIGHTMAP_2D at h
    omega

/-- Witness for the amended C4 at concrete indices: index 5 with no
lightmaps loaded downgrades silently, index -7 downgrades with the
diagnostic (also printed by R_FindShader), and the reserved sentinels
-1 and a valid slot 1 pass through. -/
theorem C4_clamp_amended_witness :
    clampLightmapIndex 0 5 = (LIGHTMAP_BY_VERTEX, false) ∧
    clampLightmapIndex 0 (-7) = (LIGHTMAP_BY_VERTEX, true) ∧
    clampLightmapIndex 3 (-1) = (-1, false) ∧
    clampLightmapIndex 3 1 = (1, false) ∧
    Warn.invalidLightmapIndex ∈
      (R_FindShader env0 initState (some ['f', 'o', 'o']) (-7) true).1.log := by
  have h1 := C4_clamp_amended env0 initState ['f', 'o', 'o'] 0 5 true
  have h2 := C4_clamp_amended env0 initState ['f', 'o', 'o'] 0 (-7) true
  have h3 := C4_clamp_amended env0 initState ['f', 'o', 'o'] 3 (-1) true
  have h4 := C4_clamp_amended env0 initState ['f', 'o', 'o'] 3 1 true
  exact ⟨h1.1 (by norm_num) (by norm_num),
    h2.2.1 (by norm_num [LIGHTMAP_2D]),
    h3.2.2.1 (by norm_num [LIGHTMAP_2D]) (by norm_num),
    h4.2.2.2.1 (by norm_num) (by norm_num),
    h2.2.2.2.2 (by norm_num [LIGHTMAP_2D])⟩

theorem clampLightmapIndex_2D (nL : Int) :
    clampLightmapIndex nL LIGHTMAP_2D = (LIGHTMAP_2D, false) := by
  unfold clampLightmapIndex
  rw [if_neg, if_neg (lt_irrefl LIGHTMAP_2D)]
  rintro ⟨h1, h2⟩
  unfold LIGHTMAP_2D at h1
  omega

/-- A cache hit with no clamp diagnostic returns the matched object and
leaves the state untouched. -/
theorem R_FindShader_hit (env : Env) (st : TrState) (nm : List Char)
    (lm : Int) (mip : Bool) (i : Nat)
    (hnw : (clampLightmapIndex st.numLightmaps lm).2 = false)
    (hw : cacheWalk st.shaders (R_StripExtension nm)
      (clampLightmapIndex st.numLightmaps lm).1
      (st.buckets (generateHashValue (R_StripExtension nm) FILE_HASH_SIZE)) = some i) :
    R_FindShader env st (some nm) lm mip = (st, i) := by
  simp only [R_FindShader, hnw, Bool.false_eq_true, if_false, ite_false]
  cases hcw : cacheWalk st.shaders (R_StripExtension nm)
      (clampLightmapIndex st.numLightmaps lm).1
      (st.buckets (generateHashValue (R_StripExtension nm) FILE_HASH_SIZE)) with
  | some j =>
      obtain rfl : i = j := Option.some.inj (hw.symm.trans hcw)
      rfl
  | none => exact Option.noConfusion (hw.symm.trans hcw)

/-- A second identical resolution always hits the cache: the walk of the
state produced by a first call finds the object that call returned. -/
theorem second_walk_hits (env : Env) (st : TrState) (nm : List Char)
    (lm : Int) (mip : Bool) :
    cacheWalk (R_FindShader env st (some nm) lm mip).1.shaders (R_StripExtension nm)
      (clampLightmapIndex (R_FindShader env st (some nm) lm mip).1.numLightmaps lm).1
      ((R_FindShader env st (some nm) lm mip).1.buckets
        (generateHashValue (R_StripExtension nm) FILE_HASH_SIZE)) =
      some (R_FindShader env st (some nm) lm mip).2 := by
  obtain ⟨hnl, hdi, hcase⟩ := R_FindShader_cases env st nm lm mip
  rcases hcase with ⟨hw, hs, hbk⟩ | ⟨hw, hk, p, hpn, hpi, hplm, hpd, hs, hbk⟩
  · rw [hnl, hs, hbk]
    exact hw
  · have hcond : walkCond (st.shaders ++ [p]) (R_StripExtension nm)
        (clampLightmapIndex st.numLightmaps lm).1 st.shaders.length := by
      unfold walkCond
      rw [getD_append_len, hpn]
      exact ⟨stricmpEq_refl _, hplm⟩
    rw [hnl, hs, hbk, updateHashTable_at, cacheWalk_cons, if_pos hcond, hk]

/-- C7: the registration wrappers reject oversized names with handle 0 and
no resolution, translate a default flagged resolution into handle 0
while leaving the object cached, and a repeated registration of the same
name takes the cache-hit path, leaving the state fully unchanged. -/
theorem C7_register_wrappers (env : Env) (st : TrState) (name : List Char) :
    (MAX_QPATH ≤ name.length →
      (RE_RegisterShader env st name).2 = 0 ∧
      (RE_RegisterShader env st name).1.shaders = st.shaders ∧
      (RE_RegisterShader env st name).1.buckets = st.buckets ∧
      (RE_RegisterShaderNoMip env st name).2 = 0 ∧
      (RE_RegisterShaderNoMip env st name).1.shaders = st.shaders ∧
      (RE_RegisterShaderNoMip env st name).1.buckets = st.buckets) ∧
    (name.length < MAX_QPATH →
      ((R_FindShader env st (some name) LIGHTMAP_2D true).1.shaders.getD
          (R_FindShader env st (some name) LIGHTMAP_2D true).2 dfltShader).defaultShader = true →
      RE_RegisterShader env st name =
        ((R_FindShader env st (some name) LIGHTMAP_2D true).1, 0) ∧
      RE_RegisterShader env (R_FindShader env st (some name) LIGHTMAP_2D true).1 name =
        ((R_FindShader env st (some name) LIGHTMAP_2D true).1, 0)) ∧
    (name.length < MAX_QPATH →
      ((R_FindShader env st (some name) LIGHTMAP_2D false).1.shaders.getD
          (R_FindShader env st (some name) LIGHTMAP_2D false).2 dfltShader).defaultShader = true →
      RE_RegisterShaderNoMip env st name =
        ((R_FindShader env st (some name) LIGHTMAP_2D false).1, 0) ∧
      RE_RegisterShaderNoMip env (R_FindShader env st (some name) LIGHTMAP_2D false).1 name =
        ((R_FindShader env st (some name) LIGHTMAP_2D false).1, 0)) := by
  refine ⟨?_, ?_, ?_⟩
  · intro hlen
    simp only [RE_RegisterShader, RE_RegisterShaderNoMip, if_pos hlen]
    exact ⟨trivial, trivial, trivial, trivial, trivial, trivial⟩
  · intro hlen hdef
    have hsecond : R_FindShader env (R_FindShader env st (some name) LIGHTMAP_2D true).1
        (some name) LIGHTMAP_2D true =
        ((R_FindShader env st (some name) LIGHTMAP_2D true).1,
         (R_FindShader env st (some name) LIGHTMAP_2D true).2) :=
      R_FindShader_hit env _ name LIGHTMAP_2D true _
        (congrArg Prod.snd (clampLightmapIndex_2D _))
        (second_walk_hits env st name LIGHTMAP_2D true)
    constructor
    · simp only [RE_RegisterShader, if_neg (not_le.mpr hlen), hdef, if_true, ite_true]
    · simp only [RE_RegisterShader, if_neg (not_le.mpr hlen), hsecond, hdef,
        if_true, ite_true]
  · intro hlen hdef
    have hsecond : R_FindShader env (R_FindShader env st (some name) LIGHTMAP_2D false).1
        (some name) LIGHTMAP_2D false =
        ((R_FindShader env st (some name) LIGHTMAP_2D false).1,
         (R_FindShader env st (some name) LIGHTMAP_2D false).2) :=
      R_FindShader_hit env _ name LIGHTMAP_2D false _
        (congrArg Prod.snd (clampLightmapIndex_2D _))
        (second_walk_hits env st name LIGHTMAP_2D false)
    constructor
    · simp only [RE_RegisterShaderNoMip, if_neg (not_le.mpr hlen), hdef, if_true, ite_true]
    · simp only [RE_RegisterShaderNoMip, if_neg (not_le.mpr hlen), hsecond, hdef,
        if_true, ite_true]

/-- Witness for C7: an oversized 64 character name is rejected with
handle 0 and no state change, and the name foo, which resolves to a
default flagged object against an empty corpus with no images, registers
as handle 0 on the first and on the repeated call. -/
theorem C7_register_wrappers_witness :
    (MAX_QPATH ≤ (List.replicate 64 'a').length ∧
      (RE_RegisterShader env0 initState (List.replicate 64 'a')).2 = 0 ∧
      (RE_RegisterShader env0 initState (List.replicate 64 'a')).1.shaders =
        initState.shaders) ∧
    (['f', 'o', 'o'].length < MAX_QPATH ∧
      ((R_FindShader env0 initState (some ['f', 'o', 'o']) LIGHTMAP_2D true).1.shaders.getD
        (R_FindShader env0 initState (some ['f', 'o', 'o']) LIGHTMAP_2D true).2
          dfltShader).defaultShader = true) ∧
    RE_RegisterShader env0 initState ['f', 'o', 'o'] =
      ((R_FindShader env0 initState (some ['f', 'o', 'o']) LIGHTMAP_2D true).1, 0) ∧
    RE_RegisterShader env0
        (R_FindShader env0 initState (some ['f', 'o', 'o']) LIGHTMAP_2D true).1
        ['f', 'o', 'o'] =
      ((R_FindShader env0 initState (some ['f', 'o', 'o']) LIGHTMAP_2D true).1, 0) := by
  have hbig := (C7_register_wrappers env0 initState (List.replicate 64 'a')).1
    (by simp [MAX_QPATH])
  have hfoo := (C7_register_wrappers env0 initState ['f', 'o', 'o']).2.1
    (by simp [MAX_QPATH]) (by decide)
  exact ⟨⟨by simp [MAX_QPATH], hbig.1, hbig.2.1⟩,
    ⟨by simp [MAX_QPATH], by decide⟩, hfoo.1, hfoo.2⟩

theorem wf_congr {st st' : TrState} (hwf : Wf st)
    (hs : st'.shaders = st.shaders) (hbk : st'.buckets = st.buckets)
    (hdi : st'.defaultIdx = st.defaultIdx) : Wf st' := by
  constructor
  · rw [hdi, hs]; exact hwf.defaultValid
  · intro b i hi
    rw [hbk] at hi
    rw [hs]
    exact hwf.chainValid b i hi
  · intro i hlt
    rw [hs] at hlt ⊢
    rw [hbk]
    exact hwf.chainComplete i hlt
  · intro b i hi
    rw [hbk] at hi
    rw [hs]
    exact hwf.chainSound b i hi
  · intro i hlt
    rw [hs] at hlt ⊢
    exact hwf.indexCoherent i hlt

theorem wf_insert {st st' : TrState} {p : shader_t} (hwf : Wf st)
    (hs : st'.shaders = st.shaders ++ [p])
    (hbk : st'.buckets =
      R_UpdateShaderHashTable st.buckets p.name st.shaders.length)
    (hdi : st'.defaultIdx = st.defaultIdx)
    (hpi : p.index = st.shaders.length) : Wf st' := by
  have hlen : st'.shaders.length = st.shaders.length + 1 := by rw [hs]; simp
  constructor
  · rw [hdi, hlen]
    exact Nat.lt_succ_of_lt hwf.defaultValid
  · intro b i hi
    rw [hbk, R_UpdateShaderHashTable] at hi
    rw [hlen]
    by_cases hb : b = generateHashValue p.name FILE_HASH_SIZE
    · rw [if_pos hb] at hi
      rcases List.mem_cons.mp hi with rfl | hi
      · omega
      · exact Nat.lt_succ_of_lt (hwf.chainValid b i hi)
    · rw [if_neg hb] at hi
      exact Nat.lt_succ_of_lt (hwf.chainValid b i hi)
  · intro i hlt
    rw [hlen] at hlt
    rw [hbk, R_UpdateShaderHashTable]
    rcases Nat.lt_succ_iff_lt_or_eq.mp hlt with hlt2 | rfl
    · rw [hs, getD_append_left p hlt2]
      split
      · exact List.mem_cons_of_mem _ (hwf.chainComplete i hlt2)
      · exact hwf.chainComplete i hlt2
    · rw [hs, getD_append_len]
      rw [if_pos rfl]
      exact List.mem_cons_self _ _
  · intro b i hi
    rw [hbk, R_UpdateShaderHashTable] at hi
    by_cases hb : b = generateHashValue p.name FILE_HASH_SIZE
    · rw [if_pos hb] at hi
      rcases List.mem_cons.mp hi with rfl | hi
      · rw [hs, getD_append_len, hb]
      · have hlt := hwf.chainValid b i hi
        rw [hs, getD_append_left p hlt]
        exact hwf.chainSound b i hi
    · rw [if_neg hb] at hi
      have hlt := hwf.chainValid b i hi
      rw [hs, getD_append_left p hlt]
      exact hwf.chainSound b i hi
  · intro i hlt
    rw [hlen] at hlt
    rcases Nat.lt_succ_iff_lt_or_eq.mp hlt with hlt2 | rfl
    · rw [hs, getD_append_left p hlt2]
      exact hwf.indexCoherent i hlt2
    · rw [hs, getD_append_len]
      exact hpi

theorem wf_findShader (env : Env) (st : TrState) (name : Option (List Char))
    (lm : Int) (mip : Bool) (hwf : Wf st) :
    Wf (R_FindShader env st name lm mip).1 := by
  cases name with
  | none => exact wf_congr hwf rfl rfl rfl
  | some nm =>
    obtain ⟨hnl, hdi, hcase⟩ := R_FindShader_cases env st nm lm mip
    rcases hcase with ⟨hw, hs, hbk⟩ | ⟨hw, hk, p, hpn, hpi, hplm, hpd, hs, hbk⟩
    · exact wf_congr hwf hs hbk hdi
    · refine wf_insert hwf hs ?_ hdi hpi
      rw [hbk, hpn]

/-- C9 counterexample: with the cached (default flagged) shader foo in
the registry, registering an image under the name foo.tga does not strip
the extension: the source function misses the cache and synthesizes a
new object with handle 2, while the claimed strip-first cache check
(registerByImageClaimed) returns the cached object with handle 1. -/
theorem C9_counterexample :
    (R_RegisterShaderFromImage stFoo ['f', 'o', 'o', '.', 't', 'g', 'a'] 5 true).2 = 2 ∧
    (registerByImageClaimed stFoo ['f', 'o', 'o', '.', 't', 'g', 'a'] 5 true).2 = 1 ∧
    ((R_RegisterShaderFromImage stFoo ['f', 'o', 'o', '.', 't', 'g', 'a'] 5 true).1.shaders.getD
      2 dfltShader).name = ['f', 'o', 'o', '.', 't', 'g', 'a'] ∧
    (2 : Nat) ≠ 1 := by
  decide

/-- C9 amended: R_RegisterShaderFromImage performs the same cache check
as the cache walk of R_FindShader, but applied to the raw supplied name
without stripping an extension (the hash itself ignores a first-dot
suffix, the name comparison does not): on a hit it returns the index of
the first matching cached object (name match case insensitive, and
lighting mode match or default flagged) leaving the state unchanged, and
only on a miss does it synthesize one new non default object directly
from the caller supplied image, never consulting the corpus (it takes no
corpus input at all). -/
theorem C9_register_from_image (st : TrState) (name : List Char) (lm : Int)
    (mip : Bool) (hwf : Wf st) :
    (∀ chain : List Nat,
      fromImageWalk st.shaders name lm chain = cacheWalk st.shaders name lm chain) ∧
    (∀ i, fromImageWalk st.shaders name lm
        (st.buckets (generateHashValue name FILE_HASH_SIZE)) = some i →
      R_RegisterShaderFromImage st name lm mip = (st, i)) ∧
    (fromImageWalk st.shaders name lm
        (st.buckets (generateHashValue name FILE_HASH_SIZE)) = none →
      (R_RegisterShaderFromImage st name lm mip).1.shaders =
        st.shaders ++ [⟨name.take (MAX_QPATH - 1), lm, st.shaders.length,
          false, none, none⟩] ∧
      (R_RegisterShaderFromImage st name lm mip).2 = st.shaders.length) := by
  refine ⟨fromImageWalk_eq_cacheWalk st.shaders name lm, ?_, ?_⟩
  · intro i hw
    simp only [R_RegisterShaderFromImage]
    cases hcw : fromImageWalk st.shaders name lm
        (st.buckets (generateHashValue name FILE_HASH_SIZE)) with
    | some j =>
        obtain rfl : i = j := Option.some.inj (hw.symm.trans hcw)
        have hmem := cacheWalk_mem
          ((fromImageWalk_eq_cacheWalk st.shaders name lm _).symm.trans hw)
        have hidx := hwf.indexCoherent i (hwf.chainValid _ i hmem.1)
        dsimp only
        rw [hidx]
    | none => exact Option.noConfusion (hw.symm.trans hcw)
  · intro hw
    simp only [R_RegisterShaderFromImage, hw]
    exact ⟨rfl, rfl⟩

/-- Witness for the amended C9: the default shader itself is found by the
raw-name cache check (handle 0, state unchanged), at the well formed
initial registry. -/
theorem C9_register_from_image_witness :
    Wf initState ∧
    fromImageWalk initState.shaders defaultShaderName 5
      (initState.buckets (generateHashValue defaultShaderName FILE_HASH_SIZE)) =
        some 0 ∧
    R_RegisterShaderFromImage initState defaultShaderName 5 true = (initState, 0) := by
  refine ⟨wf_initState, by decide, ?_⟩
  exact (C9_register_from_image initState defaultShaderName 5 true
    wf_initState).2.1 0 (by decide)

theorem setRemaps_cons (sn : List Char) (t : Nat) (shaders : List shader_t)
    (j : Nat) (rest : List Nat) :
    setRemaps sn t shaders (j :: rest) =
      setRemaps sn t
        (match shaders.get? j with
         | some sh =>
             if stricmpEq sh.name sn then
               shaders.set j
                 { sh with remappedShader := if j = t then none else some t }
             else shaders
         | none => shaders) rest := rfl

theorem setRemaps_length (sn : List Char) (t : Nat) :
    ∀ (chain : List Nat) (shaders : List shader_t),
      (setRemaps sn t shaders chain).length = shaders.length := by
  intro chain
  induction chain with
  | nil => intro shaders; rfl
  | cons j rest ih =>
    intro shaders
    rw [setRemaps_cons]
    cases hj : shaders.get? j with
    | none => exact ih shaders
    | some sh =>
      dsimp only
      by_cases hsj : stricmpEq sh.name sn
      · rw [if_pos hsj, ih]
        exact List.length_set shaders j _
      · rw [if_neg hsj, ih]

theorem setRemaps_getD (sn : List Char) (t : Nat) :
    ∀ (chain : List Nat) (shaders : List shader_t) (i : Nat),
      (setRemaps sn t shaders chain).getD i dfltShader =
        if i ∈ chain ∧ i < shaders.length ∧
            stricmpEq (shaders.getD i dfltShader).name sn then
          { shaders.getD i dfltShader with
            remappedShader := if i = t then none else some t }
        else shaders.getD i dfltShader := by
  intro chain
  induction chain with
  | nil =>
    intro shaders i
    simp [setRemaps]
  | cons j rest ih =>
    intro shaders i
    rw [setRemaps_cons]
    cases hj : shaders.get? j with
    | none =>
      dsimp only
      have hjlen : shaders.length ≤ j := by
        rw [List.get?_eq_getElem?] at hj
        exact List.getElem?_eq_none_iff.mp hj
      rw [ih]
      by_cases hcond : i < shaders.length ∧
          stricmpEq (shaders.getD i dfltShader).name sn
      · by_cases hmem : i ∈ rest
        · have hc1 : i ∈ rest ∧ i < shaders.length ∧
              stricmpEq (shaders.getD i dfltShader).name sn :=
            ⟨hmem, hcond⟩
          have hc2 : i ∈ j :: rest ∧ i < shaders.length ∧
              stricmpEq (shaders.getD i dfltShader).name sn :=
            ⟨List.mem_cons_of_mem _ hmem, hcond⟩
          rw [if_pos hc1, if_pos hc2]
        · rw [if_neg (fun hx => hmem hx.1), if_neg]
          rintro ⟨hx, hlt, _⟩
          rcases List.mem_cons.mp hx with rfl | hx2
          · omega
          · exact hmem hx2
      · rw [if_neg (fun hx => hcond hx.2), if_neg (fun hx => hcond hx.2)]
    | some sh =>
      dsimp only
      have hjlen : j < shaders.length := by
        rw [List.get?_eq_getElem?] at hj
        exact (List.getElem?_eq_some_iff.mp hj).1
      have hsh : shaders.getD j dfltShader = sh := by
        rw [List.getD_eq_getElem?_getD, ← List.get?_eq_getElem?, hj]
        rfl
      by_cases hsj : stricmpEq sh.name sn
      · rw [if_pos hsj, ih]
        have hlen2 : (shaders.set j
            { sh with remappedShader := if j = t then none else some t }).length =
            shaders.length := List.length_set shaders j _
        by_cases hij : i = j
        · subst hij
          have hgd2 : (shaders.set i
              { sh with remappedShader := if i = t then none else some t }).getD i
                dfltShader =
              { sh with remappedShader := if i = t then none else some t } :=
            getD_set_self _ hjlen
          have hrhs : i ∈ i :: rest ∧ i < shaders.length ∧
              stricmpEq (shaders.getD i dfltShader).name sn :=
            ⟨List.mem_cons_self _ _, hjlen, by rw [hsh]; exact hsj⟩
          rw [if_pos hrhs, hsh]
          by_cases hmem : i ∈ rest
          · have hc1 : i ∈ rest ∧
                i < (shaders.set i
                  { sh with remappedShader := if i = t then none else some t }).length ∧
                stricmpEq ((shaders.set i
                  { sh with remappedShader := if i = t then none else some t }).getD i
                    dfltShader).name sn := by
              refine ⟨hmem, ?_, ?_⟩
              · rw [List.length_set]
                exact hjlen
              · rw [hgd2]
                exact hsj
            rw [if_pos hc1, hgd2]
          · rw [if_neg (fun hx => hmem hx.1), hgd2]
        · have hgd2 : (shaders.set j
              { sh with remappedShader := if j = t then none else some t }).getD i
                dfltShader = shaders.getD i dfltShader :=
            getD_set_ne _ (Ne.symm hij)
          rw [hgd2, hlen2]
          refine if_congr ?_ rfl rfl
          constructor
          · rintro ⟨h1, h2, h3⟩
            exact ⟨List.mem_cons_of_mem _ h1, h2, h3⟩
          · rintro ⟨h1, h2, h3⟩
            rcases List.mem_cons.mp h1 with rfl | hx
            · exact absurd rfl hij
            · exact ⟨hx, h2, h3⟩
      · rw [if_neg hsj, ih]
        refine if_congr ?_ rfl rfl
        constructor
        · rintro ⟨h1, h2, h3⟩
          exact ⟨List.mem_cons_of_mem _ h1, h2, h3⟩
        · rintro ⟨h1, h2, h3⟩
          rcases List.mem_cons.mp h1 with rfl | hx
          · rw [hsh] at h3
            exact absurd h3 hsj
          · exact ⟨hx, h2, h3⟩

theorem setTimeOffset_length (shaders : List shader_t) (i : Nat) (τ : List Char) :
    (setTimeOffset shaders i τ).length = shaders.length := by
  unfold setTimeOffset
  cases hj : shaders.get? i with
  | none => rfl
  | some sh =>
    dsimp only
    exact List.length_set shaders i _

theorem setTimeOffset_getD (shaders : List shader_t) (i : Nat) (τ : List Char)
    (j : Nat) :
    (setTimeOffset shaders i τ).getD j dfltShader =
      if j = i ∧ i < shaders.length then
        { shaders.getD i dfltShader with timeOffset := some τ }
      else shaders.getD j dfltShader := by
  unfold setTimeOffset
  cases hj : shaders.get? i with
  | none =>
    dsimp only
    have hlen : shaders.length ≤ i := by
      rw [List.get?_eq_getElem?] at hj
      exact List.getElem?_eq_none_iff.mp hj
    rw [if_neg]
    rintro ⟨_, hlt⟩
    omega
  | some sh =>
    dsimp only
    have hilen : i < shaders.length := by
      rw [List.get?_eq_getElem?] at hj
      exact (List.getElem?_eq_some_iff.mp hj).1
    have hsh : shaders.getD i dfltShader = sh := by
      rw [List.getD_eq_getElem?_getD, ← List.get?_eq_getElem?, hj]
      rfl
    by_cases hji : j = i
    · subst hji
      rw [getD_set_self _ hilen, if_pos ⟨rfl, hilen⟩, hsh]
    · rw [getD_set_ne _ (Ne.symm hji), if_neg (fun hx => hji hx.1)]

theorem nameWalk_mem {shaders : List shader_t} {sn : List Char}
    {chain : List Nat} {i : Nat} (h : nameWalk shaders sn chain = some i) :
    i ∈ chain ∧ stricmpEq (shaders.getD i dfltShader).name sn := by
  induction chain with
  | nil => simp [nameWalk] at h
  | cons j rest ih =>
    by_cases hc : stricmpEq (shaders.getD j dfltShader).name sn
    · rw [nameWalk, if_pos hc] at h
      obtain rfl : j = i := by simpa using h
      exact ⟨List.mem_cons_self _ _, hc⟩
    · rw [nameWalk, if_neg hc] at h
      obtain ⟨h1, h2⟩ := ih h
      exact ⟨List.mem_cons_of_mem _ h1, h2⟩

theorem getByHandle_lt (st : TrState) (h : Nat) (hwf : Wf st) :
    R_GetShaderByHandle st h < st.shaders.length := by
  unfold R_GetShaderByHandle
  split
  · assumption
  · exact hwf.defaultValid

/-- The target resolution phase of RE_RemapShader keeps the state well
formed and returns a valid arena index. -/
theorem remapResolveTarget_wf (env : Env) (st : TrState) (tgt : List Char)
    (hwf : Wf st) :
    Wf (remapResolveTarget env st tgt).1 ∧
    (remapResolveTarget env st tgt).2 <
      (remapResolveTarget env st tgt).1.shaders.length := by
  have hwf2 := wf_findShader env st (some tgt) 0 true hwf
  simp only [remapResolveTarget]
  cases hnw : nameWalk st.shaders (R_StripExtension tgt)
      (st.buckets (generateHashValue (R_StripExtension tgt) FILE_HASH_SIZE)) with
  | some i =>
    dsimp only
    by_cases hi : i = st.defaultIdx
    · rw [if_pos hi]
      split <;> split <;>
        exact ⟨wf_congr hwf2 rfl rfl rfl,
          getByHandle_lt (R_FindShader env st (some tgt) 0 true).1 _ hwf2⟩
    · rw [if_neg hi]
      exact ⟨hwf, hwf.chainValid _ i (nameWalk_mem hnw).1⟩
  | none =>
    dsimp only
    rw [if_pos rfl]
    split <;> split <;>
      exact ⟨wf_congr hwf2 rfl rfl rfl,
        getByHandle_lt (R_FindShader env st (some tgt) 0 true).1 _ hwf2⟩

/-- Field content of the source-side update loop of RE_RemapShader. -/
theorem remap_fields (st1 : TrState) (k : Nat) (sn : List Char) (hwf1 : Wf st1) :
    (∀ i, i < st1.shaders.length →
      stricmpEq (st1.shaders.getD i dfltShader).name sn →
      (setRemaps sn k st1.shaders
          (st1.buckets (generateHashValue sn FILE_HASH_SIZE))).getD i dfltShader =
        { st1.shaders.getD i dfltShader with
          remappedShader := if i = k then none else some k }) ∧
    (∀ i, ¬ stricmpEq (st1.shaders.getD i dfltShader).name sn →
      (setRemaps sn k st1.shaders
          (st1.buckets (generateHashValue sn FILE_HASH_SIZE))).getD i dfltShader =
        st1.shaders.getD i dfltShader) ∧
    (setRemaps sn k st1.shaders
      (st1.buckets (generateHashValue sn FILE_HASH_SIZE))).length =
        st1.shaders.length := by
  refine ⟨?_, ?_, setRemaps_length sn k _ st1.shaders⟩
  · intro i hlt hname
    have hmem : i ∈ st1.buckets (generateHashValue sn FILE_HASH_SIZE) := by
      have := hwf1.chainComplete i hlt
      rwa [generateHashValue_stricmpEq hname] at this
    rw [setRemaps_getD, if_pos ⟨hmem, hlt, hname⟩]
  · intro i hname
    rw [setRemaps_getD, if_neg (fun hx => hname hx.2.2)]

/-- Master specification of the RE_RemapShader state update, shared by
the remap results below. -/
theorem RE_RemapShader_spec (env : Env) (st : TrState) (src tgt : List Char)
    (t : Option (List Char)) (hwf : Wf st) :
    (∀ i, i < (remapResolveTarget env st tgt).1.shaders.length →
      stricmpEq ((remapResolveTarget env st tgt).1.shaders.getD i dfltShader).name
        (R_StripExtension src) →
      ((RE_RemapShader env st src tgt t).shaders.getD i dfltShader).remappedShader =
        if i = (remapResolveTarget env st tgt).2 then none
        else some (remapResolveTarget env st tgt).2) ∧
    (∀ i, ¬ stricmpEq ((remapResolveTarget env st tgt).1.shaders.getD i
        dfltShader).name (R_StripExtension src) →
      ((RE_RemapShader env st src tgt t).shaders.getD i dfltShader).remappedShader =
        ((remapResolveTarget env st tgt).1.shaders.getD i dfltShader).remappedShader) ∧
    (∀ τ, t = some τ →
      ((RE_RemapShader env st src tgt t).shaders.getD
        (remapResolveTarget env st tgt).2 dfltShader).timeOffset = some τ) ∧
    (∀ i, i ≠ (remapResolveTarget env st tgt).2 →
      ((RE_RemapShader env st src tgt t).shaders.getD i dfltShader).timeOffset =
        ((remapResolveTarget env st tgt).1.shaders.getD i dfltShader).timeOffset) := by
  obtain ⟨hwf1, hklt⟩ := remapResolveTarget_wf env st tgt hwf
  obtain ⟨hupd, hkeep, hlen⟩ :=
    remap_fields (remapResolveTarget env st tgt).1
      (remapResolveTarget env st tgt).2 (R_StripExtension src) hwf1
  have hfinal : (RE_RemapShader env st src tgt t).shaders =
      match t with
      | some τ =>
          setTimeOffset
            (setRemaps (R_StripExtension src) (remapResolveTarget env st tgt).2
              (remapResolveTarget env st tgt).1.shaders
              ((remapResolveTarget env st tgt).1.buckets
                (generateHashValue (R_StripExtension src) FILE_HASH_SIZE)))
            (remapResolveTarget env st tgt).2 τ
      | none =>
          setRemaps (R_StripExtension src) (remapResolveTarget env st tgt).2
            (remapResolveTarget env st tgt).1.shaders
            ((remapResolveTarget env st tgt).1.buckets
              (generateHashValue (R_StripExtension src) FILE_HASH_SIZE)) := by
    cases t <;> rfl
  refine ⟨?_, ?_, ?_, ?_⟩
  · intro i hlt hname
    cases t with
    | none =>
      rw [hfinal, hupd i hlt hname]
    | some τ =>
      rw [hfinal, setTimeOffset_getD]
      split
      · rename_i hx
        rw [if_pos hx.1]
        have h2 := hupd i hlt hname
        rw [hx.1] at h2
        rw [h2]
        simp
      · rw [hupd i hlt hname]
  · intro i hname
    cases t with
    | none =>
      rw [hfinal, hkeep i hname]
    | some τ =>
      rw [hfinal, setTimeOffset_getD]
      split
      · rename_i hx
        rw [hx.1]
        rw [hx.1] at hname
        rw [hkeep _ hname]
      · rw [hkeep i hname]
  · intro τ ht
    subst ht
    rw [hfinal, setTimeOffset_getD, if_pos ⟨rfl, by rw [hlen]; exact hklt⟩]
  · intro i hik
    cases t with
    | none =>
      rw [hfinal]
      by_cases hname : stricmpEq ((remapResolveTarget env st tgt).1.shaders.getD i
          dfltShader).name (R_StripExtension src)
      · by_cases hlt : i < (remapResolveTarget env st tgt).1.shaders.length
        · rw [hupd i hlt hname]
        · rw [setRemaps_getD, if_neg (fun hx => hlt hx.2.1)]
      · rw [hkeep i hname]
    | some τ =>
      rw [hfinal, setTimeOffset_getD, if_neg (fun hx => hik hx.1)]
      by_cases hname : stricmpEq ((remapResolveTarget env st tgt).1.shaders.getD i
          dfltShader).name (R_StripExtension src)
      · by_cases hlt : i < (remapResolveTarget env st tgt).1.shaders.length
        · rw [hupd i hlt hname]
        · rw [setRemaps_getD, if_neg (fun hx => hlt hx.2.1)]
      · rw [hkeep i hname]

/-- C8: after RE_RemapShader, every cached object whose stripped name
matches the stripped source name (any lighting mode) has its remap
reference set to the resolved target, except an object that is itself
the target, whose remap reference is cleared; objects with other names
keep their remap reference; and a supplied time offset is parsed and
stored on the resolved target object only, every other object keeping
its previous time offset. -/
theorem C8_remap_shader (env : Env) (st : TrState) (src tgt : List Char)
    (t : Option (List Char)) (hwf : Wf st) :
    (∀ i, i < (remapResolveTarget env st tgt).1.shaders.length →
      stricmpEq ((remapResolveTarget env st tgt).1.shaders.getD i dfltShader).name
        (R_StripExtension src) →
      ((RE_RemapShader env st src tgt t).shaders.getD i dfltShader).remappedShader =
        if i = (remapResolveTarget env st tgt).2 then none
        else some (remapResolveTarget env st tgt).2) ∧
    (∀ i, ¬ stricmpEq ((remapResolveTarget env st tgt).1.shaders.getD i
        dfltShader).name (R_StripExtension src) →
      ((RE_RemapShader env st src tgt t).shaders.getD i dfltShader).remappedShader =
        ((remapResolveTarget env st tgt).1.shaders.getD i dfltShader).remappedShader) ∧
    (∀ τ, t = some τ →
      ((RE_RemapShader env st src tgt t).shaders.getD
        (remapResolveTarget env st tgt).2 dfltShader).timeOffset = some τ) ∧
    (∀ i, i ≠ (remapResolveTarget env st tgt).2 →
      ((RE_RemapShader env st src tgt t).shaders.getD i dfltShader).timeOffset =
        ((remapResolveTarget env st tgt).1.shaders.getD i dfltShader).timeOffset) :=
  RE_RemapShader_spec env st src tgt t hwf

/-- Witness for C8 at a concrete registry: remapping foo (cached,
default flagged, at index 1) to the absent name bar stores a remap
reference on the foo object and the time offset text 0.5 on the resolved
target object. -/
theorem C8_remap_shader_witness :
    Wf stFoo ∧
    (1 < (remapResolveTarget env0 stFoo ['b', 'a', 'r']).1.shaders.length ∧
      stricmpEq ((remapResolveTarget env0 stFoo ['b', 'a', 'r']).1.shaders.getD 1
        dfltShader).name (R_StripExtension ['f', 'o', 'o'])) ∧
    ((RE_RemapShader env0 stFoo ['f', 'o', 'o'] ['b', 'a', 'r']
        (some ['0', '.', '5'])).shaders.getD 1 dfltShader).remappedShader =
      (if 1 = (remapResolveTarget env0 stFoo ['b', 'a', 'r']).2 then none
       else some (remapResolveTarget env0 stFoo ['b', 'a', 'r']).2) ∧
    ((RE_RemapShader env0 stFoo ['f', 'o', 'o'] ['b', 'a', 'r']
        (some ['0', '.', '5'])).shaders.getD
      (remapResolveTarget env0 stFoo ['b', 'a', 'r']).2 dfltShader).timeOffset =
        some ['0', '.', '5'] := by
  have hwfFoo : Wf stFoo :=
    wf_findShader env0 initState (some ['f', 'o', 'o']) LIGHTMAP_NONE true wf_initState
  have h := C8_remap_shader env0 stFoo ['f', 'o', 'o'] ['b', 'a', 'r']
    (some ['0', '.', '5']) hwfFoo
  exact ⟨hwfFoo, ⟨by decide, by decide⟩, h.1 1 (by decide) (by decide),
    h.2.2.1 _ rfl⟩

theorem findShader_getD_preserved (env : Env) (st : TrState) (nm : List Char)
    (lm : Int) (mip : Bool) (i : Nat) (hi : i < st.shaders.length) :
    (R_FindShader env st (some nm) lm mip).1.shaders.getD i dfltShader =
      st.shaders.getD i dfltShader := by
  obtain ⟨hnl, hdi, hcase⟩ := R_FindShader_cases env st nm lm mip
  rcases hcase with ⟨hw, hs, hbk⟩ | ⟨hw, hk, p, hpn, hpi, hplm, hpd, hs, hbk⟩
  · rw [hs]
  · rw [hs, getD_append_left p hi]

/-- When the target of RE_RemapShader is absent from the cache and its
full resolution yields a default flagged object, the resolution phase
warns and hands back handle 0, the process-wide default shader. -/
theorem remapResolveTarget_missing (env : Env) (st : TrState) (tgt : List Char)
    (hwf : Wf st) (hdi0 : st.defaultIdx = 0)
    (hnw : nameWalk st.shaders (R_StripExtension tgt)
      (st.buckets (generateHashValue (R_StripExtension tgt) FILE_HASH_SIZE)) = none)
    (hdef : ((R_FindShader env st (some tgt) 0 true).1.shaders.getD
      (R_FindShader env st (some tgt) 0 true).2 dfltShader).defaultShader = true) :
    remapResolveTarget env st tgt =
      ({ (R_FindShader env st (some tgt) 0 true).1 with
         log := Warn.remapShaderNotFound ::
           (R_FindShader env st (some tgt) 0 true).1.log }, 0) := by
  have hwf2 := wf_findShader env st (some tgt) 0 true hwf
  have hdi2 : (R_FindShader env st (some tgt) 0 true).1.defaultIdx = 0 := by
    rw [(R_FindShader_cases env st tgt 0 true).2.1, hdi0]
  have hg : R_GetShaderByHandle (R_FindShader env st (some tgt) 0 true).1 0 = 0 := by
    unfold R_GetShaderByHandle
    rw [if_pos]
    exact hdi2 ▸ hwf2.defaultValid
  simp only [remapResolveTarget, hnw]
  simp only [hdef, if_true, ite_true, hg]
  rw [if_pos hdi2.symm]

/-- C10: when RE_RemapShader cannot resolve the target name to a non
default shader (absent from the cache, full resolution default flagged),
the state still changes: a warning is printed, every cached object whose
stripped name matches the stripped source name (the default shader not
being one of them) gets its remap reference set to the process-wide
default shader at index 0, and a supplied time offset is stored on that
default shader object itself. -/
theorem C10_remap_missing_target (env : Env) (st : TrState) (src tgt : List Char)
    (t : Option (List Char)) (hwf : Wf st) (hdi0 : st.defaultIdx = 0)
    (hnw : nameWalk st.shaders (R_StripExtension tgt)
      (st.buckets (generateHashValue (R_StripExtension tgt) FILE_HASH_SIZE)) = none)
    (hdef : ((R_FindShader env st (some tgt) 0 true).1.shaders.getD
      (R_FindShader env st (some tgt) 0 true).2 dfltShader).defaultShader = true)
    (hsrc : ¬ stricmpEq (st.shaders.getD 0 dfltShader).name (R_StripExtension src)) :
    (remapResolveTarget env st tgt).2 = 0 ∧
    Warn.remapShaderNotFound ∈ (RE_RemapShader env st src tgt t).log ∧
    (∀ i, i < (remapResolveTarget env st tgt).1.shaders.length →
      stricmpEq ((remapResolveTarget env st tgt).1.shaders.getD i dfltShader).name
        (R_StripExtension src) →
      ((RE_RemapShader env st src tgt t).shaders.getD i dfltShader).remappedShader =
        some 0) ∧
    (∀ τ, t = some τ →
      ((RE_RemapShader env st src tgt t).shaders.getD 0 dfltShader).timeOffset =
        some τ) := by
  have hmiss := remapResolveTarget_missing env st tgt hwf hdi0 hnw hdef
  have hspec := RE_RemapShader_spec env st src tgt t hwf
  have hK : (remapResolveTarget env st tgt).2 = 0 := by rw [hmiss]
  have h0name : (remapResolveTarget env st tgt).1.shaders.getD 0 dfltShader =
      st.shaders.getD 0 dfltShader := by
    rw [hmiss]
    exact findShader_getD_preserved env st tgt 0 true 0 (hdi0 ▸ hwf.defaultValid)
  refine ⟨hK, ?_, ?_, ?_⟩
  · have hlog : (RE_RemapShader env st src tgt t).log =
        (remapResolveTarget env st tgt).1.log := by
      cases t <;> rfl
    rw [hlog, hmiss]
    exact List.mem_cons_self _ _
  · intro i hlt hname
    have hne : i ≠ 0 := by
      intro h0
      subst h0
      rw [h0name] at hname
      exact hsrc hname
    rw [hspec.1 i hlt hname, hK, if_neg hne]
  · intro τ ht
    have := hspec.2.2.1 τ ht
    rwa [hK] at this

/-- Witness for C10: remapping foo to the absent name bar (empty corpus,
no images) warns, remaps the cached foo object to the default shader at
index 0, and stores the time offset text 0.5 on the default shader. -/
theorem C10_remap_missing_target_witness :
    Wf stFoo ∧ stFoo.defaultIdx = 0 ∧
    (remapResolveTarget env0 stFoo ['b', 'a', 'r']).2 = 0 ∧
    Warn.remapShaderNotFound ∈
      (RE_RemapShader env0 stFoo ['f', 'o', 'o'] ['b', 'a', 'r']
        (some ['0', '.', '5'])).log ∧
    ((RE_RemapShader env0 stFoo ['f', 'o', 'o'] ['b', 'a', 'r']
        (some ['0', '.', '5'])).shaders.getD 1 dfltShader).remappedShader = some 0 ∧
    ((RE_RemapShader env0 stFoo ['f', 'o', 'o'] ['b', 'a', 'r']
        (some ['0', '.', '5'])).shaders.getD 0 dfltShader).timeOffset =
      some ['0', '.', '5'] := by
  have hwfFoo : Wf stFoo :=
    wf_findShader env0 initState (some ['f', 'o', 'o']) LIGHTMAP_NONE true wf_initState
  have h := C10_remap_missing_target env0 stFoo ['f', 'o', 'o'] ['b', 'a', 'r']
    (some ['0', '.', '5']) hwfFoo (by decide) (by decide) (by decide) (by decide)
  exact ⟨hwfFoo, by decide, h.1, h.2.1, h.2.2.1 1 (by decide) (by decide),
    h.2.2.2 _ rfl⟩

theorem cacheWalk_append_first (shaders : List shader_t) (sn : List Char)
    (m : Int) (k : Nat) (l2 : List Nat) :
    ∀ l1 : List Nat, (∀ j ∈ l1, ¬ walkCond shaders sn m j) →
      walkCond shaders sn m k →
      cacheWalk shaders sn m (l1 ++ k :: l2) = some k := by
  intro l1
  induction l1 with
  | nil =>
    intro _ hk
    rw [List.nil_append, cacheWalk_cons, if_pos hk]
  | cons j rest ih =>
    intro hl hk
    rw [List.cons_append, cacheWalk_cons, if_neg (hl j (List.mem_cons_self _ _))]
    exact ih (fun x hx => hl x (List.mem_cons_of_mem _ hx)) hk

theorem inv_congr {sn : List Char} {k : Nat} {st st' : TrState}
    (hinv : Inv sn k st) (hs : st'.shaders = st.shaders)
    (hbk : st'.buckets = st.buckets) : Inv sn k st' := by
  obtain ⟨h1, h2, h3, h4⟩ := hinv
  refine ⟨by rw [hs]; exact h1, by rw [hs]; exact h2, by rw [hs]; exact h3, ?_⟩
  intro m
  rw [hs, hbk]
  exact h4 m

theorem inv_mutate {sn : List Char} {k : Nat} {st : TrState}
    (hinv : Inv sn k st) (shaders' : List shader_t)
    (hlen : shaders'.length = st.shaders.length)
    (hview : sameWalkView shaders' st.shaders) :
    Inv sn k { st with shaders := shaders' } := by
  obtain ⟨h1, h2, h3, h4⟩ := hinv
  obtain ⟨hvn, hvl, hvd⟩ := hview k
  refine ⟨by simpa [hlen] using h1, ?_, ?_, ?_⟩
  · show (shaders'.getD k dfltShader).defaultShader = true
    rw [hvd]
    exact h2
  · show stricmpEq (shaders'.getD k dfltShader).name sn
    rw [hvn]
    exact h3
  · intro m
    show cacheWalk shaders' sn m (st.buckets (generateHashValue sn FILE_HASH_SIZE)) =
      some k
    rw [cacheWalk_congr_view hview sn m]
    exact h4 m

theorem miss_not_stricmp {sn : List Char} {k : Nat} {st : TrState}
    (hinv : Inv sn k st) {q : List Char} {m : Int}
    (hmiss : cacheWalk st.shaders q m
      (st.buckets (generateHashValue q FILE_HASH_SIZE)) = none) :
    ¬ stricmpEq q sn := by
  intro hq
  have hh : generateHashValue q FILE_HASH_SIZE =
      generateHashValue sn FILE_HASH_SIZE := generateHashValue_stricmpEq hq _
  rw [hh, cacheWalk_congr_query hq m] at hmiss
  rw [hinv.2.2.2 m] at hmiss
  exact Option.noConfusion hmiss

theorem inv_insert {sn : List Char} {k : Nat} {st st' : TrState} {p : shader_t}
    (hwf : Wf st) (hinv : Inv sn k st)
    (hs : st'.shaders = st.shaders ++ [p])
    (hbk : st'.buckets =
      R_UpdateShaderHashTable st.buckets p.name st.shaders.length)
    (hpn : ¬ stricmpEq p.name sn) : Inv sn k st' := by
  obtain ⟨h1, h2, h3, h4⟩ := hinv
  refine ⟨by rw [hs]; simp; omega, ?_, ?_, ?_⟩
  · rw [hs, getD_append_left p h1]
    exact h2
  · rw [hs, getD_append_left p h1]
    exact h3
  · intro m
    rw [hs, hbk, R_UpdateShaderHashTable]
    by_cases hb : generateHashValue sn FILE_HASH_SIZE =
        generateHashValue p.name FILE_HASH_SIZE
    · rw [if_pos hb, cacheWalk_cons, if_neg, cacheWalk_append_arena _
        (fun j hj => hwf.chainValid _ j hj)]
      · exact h4 m
      · intro hc
        have : stricmpEq p.name sn := by
          have := hc.1
          rwa [getD_append_len] at this
        exact hpn this
    · rw [if_neg hb, cacheWalk_append_arena _ (fun j hj => hwf.chainValid _ j hj)]
      exact h4 m

/-- A resolution that returns a default flagged object establishes the
sticky-default invariant for the stripped name. -/
theorem inv_established (env : Env) (st : TrState) (nm : List Char) (m1 : Int)
    (mip : Bool) (hwf : Wf st) (hgi : GlobalInv st)
    (hdef : ((R_FindShader env st (some nm) m1 mip).1.shaders.getD
      (R_FindShader env st (some nm) m1 mip).2 dfltShader).defaultShader = true) :
    Inv (R_StripExtension nm) (R_FindShader env st (some nm) m1 mip).2
      (R_FindShader env st (some nm) m1 mip).1 := by
  obtain ⟨hnl, hdi, hcase⟩ := R_FindShader_cases env st nm m1 mip
  rcases hcase with ⟨hw, hs, hbk⟩ | ⟨hw, hk, p, hpn, hpi, hplm, hpd, hs, hbk⟩
  · rw [hs] at hdef
    obtain ⟨l1, l2, hchain, hl1, hck⟩ := cacheWalk_eq_some _ _ _ _ _ hw
    have hPW := hgi (generateHashValue (R_StripExtension nm) FILE_HASH_SIZE)
    rw [hchain] at hPW
    have hR := (List.pairwise_append.mp hPW).2.2
    refine inv_congr ⟨?_, hdef, hck.1, ?_⟩ hs hbk
    · exact hwf.chainValid _ _ (cacheWalk_mem hw).1
    · intro m
      rw [hchain]
      apply cacheWalk_append_first
      · intro j hj hcondj
        exact hR j hj _ (List.mem_cons_self _ _) hdef
          (stricmpEq_trans hcondj.1 (stricmpEq_symm hck.1))
      · exact ⟨hck.1, Or.inr hdef⟩
  · have hdefp : p.defaultShader = true := by
      rw [hs, hk, getD_append_len] at hdef
      exact hdef
    refine ⟨?_, ?_, ?_, ?_⟩
    · rw [hs, hk]
      simp
    · rw [hs, hk, getD_append_len]
      exact hdefp
    · rw [hs, hk, getD_append_len, hpn]
      exact stricmpEq_refl _
    · intro m
      rw [hs, hbk, hk, updateHashTable_at, cacheWalk_cons, if_pos]
      constructor
      · rw [getD_append_len, hpn]
        exact stricmpEq_refl _
      · rw [getD_append_len]
        exact Or.inr hdefp

theorem wf_mutate {st : TrState} (hwf : Wf st) (shaders' : List shader_t)
    (hlen : shaders'.length = st.shaders.length)
    (hname : ∀ i, (shaders'.getD i dfltShader).name =
      (st.shaders.getD i dfltShader).name)
    (hidx : ∀ i, (shaders'.getD i dfltShader).index =
      (st.shaders.getD i dfltShader).index) :
    Wf { st with shaders := shaders' } := by
  constructor
  · show st.defaultIdx < shaders'.length
    rw [hlen]
    exact hwf.defaultValid
  · intro b i hi
    show i < shaders'.length
    rw [hlen]
    exact hwf.chainValid b i hi
  · intro i hlt
    show i ∈ st.buckets
      (generateHashValue (shaders'.getD i dfltShader).name FILE_HASH_SIZE)
    rw [hname i]
    exact hwf.chainComplete i (by rw [← hlen]; exact hlt)
  · intro b i hi
    show generateHashValue (shaders'.getD i dfltShader).name FILE_HASH_SIZE = b
    rw [hname i]
    exact hwf.chainSound b i hi
  · intro i hlt
    show (shaders'.getD i dfltShader).index = i
    rw [hidx i]
    exact hwf.indexCoherent i (by rw [← hlen]; exact hlt)

theorem setRemaps_fields (sn : List Char) (k : Nat) (chain : List Nat)
    (shaders : List shader_t) (i : Nat) :
    ((setRemaps sn k shaders chain).getD i dfltShader).name =
      (shaders.getD i dfltShader).name ∧
    ((setRemaps sn k shaders chain).getD i dfltShader).lightmapIndex =
      (shaders.getD i dfltShader).lightmapIndex ∧
    ((setRemaps sn k shaders chain).getD i dfltShader).defaultShader =
      (shaders.getD i dfltShader).defaultShader ∧
    ((setRemaps sn k shaders chain).getD i dfltShader).index =
      (shaders.getD i dfltShader).index := by
  rw [setRemaps_getD]
  split
  · exact ⟨rfl, rfl, rfl, rfl⟩
  · exact ⟨rfl, rfl, rfl, rfl⟩

theorem setTimeOffset_fields (shaders : List shader_t) (k : Nat) (τ : List Char)
    (i : Nat) :
    ((setTimeOffset shaders k τ).getD i dfltShader).name =
      (shaders.getD i dfltShader).name ∧
    ((setTimeOffset shaders k τ).getD i dfltShader).lightmapIndex =
      (shaders.getD i dfltShader).lightmapIndex ∧
    ((setTimeOffset shaders k τ).getD i dfltShader).defaultShader =
      (shaders.getD i dfltShader).defaultShader ∧
    ((setTimeOffset shaders k τ).getD i dfltShader).index =
      (shaders.getD i dfltShader).index := by
  rw [setTimeOffset_getD]
  split
  · rename_i hx
    rw [hx.1]
    exact ⟨rfl, rfl, rfl, rfl⟩
  · exact ⟨rfl, rfl, rfl, rfl⟩

theorem registerShader_fst (env : Env) (st : TrState) (n : List Char) :
    (RE_RegisterShader env st n).1 =
      if MAX_QPATH ≤ n.length then
        { st with log := Warn.nameExceedsMaxQpath :: st.log }
      else (R_FindShader env st (some n) LIGHTMAP_2D true).1 := by
  unfold RE_RegisterShader
  split
  · rfl
  · dsimp only
    split <;> rfl

theorem registerShaderNoMip_fst (env : Env) (st : TrState) (n : List Char) :
    (RE_RegisterShaderNoMip env st n).1 =
      if MAX_QPATH ≤ n.length then
        { st with log := Warn.nameExceedsMaxQpath :: st.log }
      else (R_FindShader env st (some n) LIGHTMAP_2D false).1 := by
  unfold RE_RegisterShaderNoMip
  split
  · rfl
  · dsimp only
    split <;> rfl

theorem fromImage_cases (st : TrState) (n : List Char) (lm : Int) (mip : Bool) :
    (R_RegisterShaderFromImage st n lm mip).1 = st ∨
    (cacheWalk st.shaders n lm
        (st.buckets (generateHashValue n FILE_HASH_SIZE)) = none ∧
      (R_RegisterShaderFromImage st n lm mip).1.shaders =
        st.shaders ++ [⟨n.take (MAX_QPATH - 1), lm, st.shaders.length,
          false, none, none⟩] ∧
      (R_RegisterShaderFromImage st n lm mip).1.buckets =
        R_UpdateShaderHashTable st.buckets (n.take (MAX_QPATH - 1))
          st.shaders.length ∧
      (R_RegisterShaderFromImage st n lm mip).1.defaultIdx = st.defaultIdx) := by
  simp only [R_RegisterShaderFromImage]
  cases hw : fromImageWalk st.shaders n lm
      (st.buckets (generateHashValue n FILE_HASH_SIZE)) with
  | some i => exact Or.inl rfl
  | none =>
    refine Or.inr ⟨?_, rfl, rfl, rfl⟩
    rw [← fromImageWalk_eq_cacheWalk]
    exact hw

theorem remapResolveTarget_fst (env : Env) (st : TrState) (tgt : List Char) :
    (remapResolveTarget env st tgt).1 = st ∨
    (remapResolveTarget env st tgt).1 = (R_FindShader env st (some tgt) 0 true).1 ∨
    (remapResolveTarget env st tgt).1 =
      { (R_FindShader env st (some tgt) 0 true).1 with
        log := Warn.remapShaderNotFound ::
          (R_FindShader env st (some tgt) 0 true).1.log } := by
  simp only [remapResolveTarget]
  cases hnw : nameWalk st.shaders (R_StripExtension tgt)
      (st.buckets (generateHashValue (R_StripExtension tgt) FILE_HASH_SIZE)) with
  | some i =>
    dsimp only
    split
    · split <;> split <;>
        first
        | exact Or.inl rfl
        | exact Or.inr (Or.inl rfl)
        | exact Or.inr (Or.inr rfl)
    · exact Or.inl rfl
  | none =>
    dsimp only
    rw [if_pos rfl]
    split <;> split <;>
      first
      | exact Or.inl rfl
      | exact Or.inr (Or.inl rfl)
      | exact Or.inr (Or.inr rfl)

theorem wf_inv_findShader (env : Env) (sn : List Char) (k : Nat) (st : TrState)
    (n2 : List Char) (lm : Int) (mip : Bool) (hwf : Wf st) (hinv : Inv sn k st) :
    Wf (R_FindShader env st (some n2) lm mip).1 ∧
    Inv sn k (R_FindShader env st (some n2) lm mip).1 := by
  refine ⟨wf_findShader env st (some n2) lm mip hwf, ?_⟩
  obtain ⟨hnl, hdi, hcase⟩ := R_FindShader_cases env st n2 lm mip
  rcases hcase with ⟨hw, hs, hbk⟩ | ⟨hw, hk, p, hpn, hpi, hplm, hpd, hs, hbk⟩
  · exact inv_congr hinv hs hbk
  · have hq : ¬ stricmpEq (R_StripExtension n2) sn := miss_not_stricmp hinv hw
    refine inv_insert hwf hinv hs ?_ ?_
    · rw [hbk, hpn]
    · rw [hpn]
      exact hq

theorem wf_inv_runOp (env : Env) (sn : List Char) (k : Nat) (st : TrState)
    (op : Op) (hwf : Wf st) (hinv : Inv sn k st) (hsmall : OpSmall op) :
    Wf (runOp env st op) ∧ Inv sn k (runOp env st op) := by
  cases op with
  | findShader name lm mip =>
    cases name with
    | none => exact ⟨wf_congr hwf rfl rfl rfl, inv_congr hinv rfl rfl⟩
    | some n2 => exact wf_inv_findShader env sn k st n2 lm mip hwf hinv
  | registerShader n =>
    show Wf (RE_RegisterShader env st n).1 ∧ Inv sn k (RE_RegisterShader env st n).1
    rw [registerShader_fst]
    split
    · exact ⟨wf_congr hwf rfl rfl rfl, inv_congr hinv rfl rfl⟩
    · exact wf_inv_findShader env sn k st n LIGHTMAP_2D true hwf hinv
  | registerShaderNoMip n =>
    show Wf (RE_RegisterShaderNoMip env st n).1 ∧
      Inv sn k (RE_RegisterShaderNoMip env st n).1
    rw [registerShaderNoMip_fst]
    split
    · exact ⟨wf_congr hwf rfl rfl rfl, inv_congr hinv rfl rfl⟩
    · exact wf_inv_findShader env sn k st n LIGHTMAP_2D false hwf hinv
  | registerFromImage n lm mip =>
    have hn : n.take (MAX_QPATH - 1) = n := by
      refine List.take_of_length_le ?_
      have : n.length < MAX_QPATH := hsmall
      omega
    show Wf (R_RegisterShaderFromImage st n lm mip).1 ∧
      Inv sn k (R_RegisterShaderFromImage st n lm mip).1
    rcases fromImage_cases st n lm mip with heq | ⟨hwn, hs, hbk, hdi⟩
    · rw [heq]
      exact ⟨hwf, hinv⟩
    · constructor
      · exact wf_insert hwf hs hbk hdi rfl
      · refine inv_insert hwf hinv hs hbk ?_
        show ¬ stricmpEq (n.take (MAX_QPATH - 1)) sn
        rw [hn]
        exact miss_not_stricmp hinv hwn
  | remapShader a b t =>
    have hst1 : Wf (remapResolveTarget env st b).1 ∧
        Inv sn k (remapResolveTarget env st b).1 := by
      rcases remapResolveTarget_fst env st b with h | h | h
      · rw [h]
        exact ⟨hwf, hinv⟩
      · rw [h]
        exact wf_inv_findShader env sn k st b 0 true hwf hinv
      · rw [h]
        have h2 := wf_inv_findShader env sn k st b 0 true hwf hinv
        exact ⟨wf_congr h2.1 rfl rfl rfl, inv_congr h2.2 rfl rfl⟩
    show Wf (RE_RemapShader env st a b t) ∧ Inv sn k (RE_RemapShader env st a b t)
    cases t with
    | none =>
      have hshape : RE_RemapShader env st a b none =
          { (remapResolveTarget env st b).1 with
            shaders := setRemaps (R_StripExtension a) (remapResolveTarget env st b).2
              (remapResolveTarget env st b).1.shaders
              ((remapResolveTarget env st b).1.buckets
                (generateHashValue (R_StripExtension a) FILE_HASH_SIZE)) } := rfl
      rw [hshape]
      have hlen := setRemaps_length (R_StripExtension a)
        (remapResolveTarget env st b).2
        ((remapResolveTarget env st b).1.buckets
          (generateHashValue (R_StripExtension a) FILE_HASH_SIZE))
        (remapResolveTarget env st b).1.shaders
      refine ⟨wf_mutate hst1.1 _ hlen
          (fun i => (setRemaps_fields _ _ _ _ i).1)
          (fun i => (setRemaps_fields _ _ _ _ i).2.2.2),
        inv_mutate hst1.2 _ hlen (fun i =>
          ⟨(setRemaps_fields _ _ _ _ i).1, (setRemaps_fields _ _ _ _ i).2.1,
            (setRemaps_fields _ _ _ _ i).2.2.1⟩)⟩
    | some τ =>
      have hshape : RE_RemapShader env st a b (some τ) =
          { (remapResolveTarget env st b).1 with
            shaders := setTimeOffset
              (setRemaps (R_StripExtension a) (remapResolveTarget env st b).2
                (remapResolveTarget env st b).1.shaders
                ((remapResolveTarget env st b).1.buckets
                  (generateHashValue (R_StripExtension a) FILE_HASH_SIZE)))
              (remapResolveTarget env st b).2 τ } := rfl
      rw [hshape]
      have hlen1 := setRemaps_length (R_StripExtension a)
        (remapResolveTarget env st b).2
        ((remapResolveTarget env st b).1.buckets
          (generateHashValue (R_StripExtension a) FILE_HASH_SIZE))
        (remapResolveTarget env st b).1.shaders
      have hlen2 := setTimeOffset_length
        (setRemaps (R_StripExtension a) (remapResolveTarget env st b).2
          (remapResolveTarget env st b).1.shaders
          ((remapResolveTarget env st b).1.buckets
            (generateHashValue (R_StripExtension a) FILE_HASH_SIZE)))
        (remapResolveTarget env st b).2 τ
      have hname : ∀ i, ((setTimeOffset
          (setRemaps (R_StripExtension a) (remapResolveTarget env st b).2
            (remapResolveTarget env st b).1.shaders
            ((remapResolveTarget env st b).1.buckets
              (generateHashValue (R_StripExtension a) FILE_HASH_SIZE)))
          (remapResolveTarget env st b).2 τ).getD i dfltShader).name =
          ((remapResolveTarget env st b).1.shaders.getD i dfltShader).name :=
        fun i => ((setTimeOffset_fields _ _ _ i).1).trans
          (setRemaps_fields _ _ _ _ i).1
      have hlm : ∀ i, ((setTimeOffset
          (setRemaps (R_StripExtension a) (remapResolveTarget env st b).2
            (remapResolveTarget env st b).1.shaders
            ((remapResolveTarget env st b).1.buckets
              (generateHashValue (R_StripExtension a) FILE_HASH_SIZE)))
          (remapResolveTarget env st b).2 τ).getD i dfltShader).lightmapIndex =
          ((remapResolveTarget env st b).1.shaders.getD i dfltShader).lightmapIndex :=
        fun i => ((setTimeOffset_fields _ _ _ i).2.1).trans
          (setRemaps_fields _ _ _ _ i).2.1
      have hdf : ∀ i, ((setTimeOffset
          (setRemaps (R_StripExtension a) (remapResolveTarget env st b).2
            (remapResolveTarget env st b).1.shaders
            ((remapResolveTarget env st b).1.buckets
              (generateHashValue (R_StripExtension a) FILE_HASH_SIZE)))
          (remapResolveTarget env st b).2 τ).getD i dfltShader).defaultShader =
          ((remapResolveTarget env st b).1.shaders.getD i dfltShader).defaultShader :=
        fun i => ((setTimeOffset_fields _ _ _ i).2.2.1).trans
          (setRemaps_fields _ _ _ _ i).2.2.1
      have hix : ∀ i, ((setTimeOffset
          (setRemaps (R_StripExtension a) (remapResolveTarget env st b).2
            (remapResolveTarget env st b).1.shaders
            ((remapResolveTarget env st b).1.buckets
              (generateHashValue (R_StripExtension a) FILE_HASH_SIZE)))
          (remapResolveTarget env st b).2 τ).getD i dfltShader).index =
          ((remapResolveTarget env st b).1.shaders.getD i dfltShader).index :=
        fun i => ((setTimeOffset_fields _ _ _ i).2.2.2).trans
          (setRemaps_fields _ _ _ _ i).2.2.2
      exact ⟨wf_mutate hst1.1 _ (hlen2.trans hlen1) hname hix,
        inv_mutate hst1.2 _ (hlen2.trans hlen1)
          (fun i => ⟨hname i, hlm i, hdf i⟩)⟩

theorem wf_inv_runOps (env : Env) (sn : List Char) (k : Nat) :
    ∀ (ops : List Op) (st : TrState), Wf st → Inv sn k st →
      (∀ op ∈ ops, OpSmall op) →
      Wf (runOps env st ops) ∧ Inv sn k (runOps env st ops) := by
  intro ops
  induction ops with
  | nil => exact fun st hwf hinv _ => ⟨hwf, hinv⟩
  | cons op rest ih =>
    intro st hwf hinv hops
    have h1 := wf_inv_runOp env sn k st op hwf hinv (hops op (List.mem_cons_self _ _))
    exact ih (runOp env st op) h1.1 h1.2
      (fun o ho => hops o (List.mem_cons_of_mem _ ho))

theorem globalInv_initState : GlobalInv initState := by
  intro b
  simp only [initState]
  split
  · exact List.pairwise_singleton _ _
  · exact List.Pairwise.nil

/-- C2: once a resolution of a name produced a default flagged object,
every subsequent resolution of that name returns the very same object,
whatever lighting mode and mip policy are requested, and however many
registration, image-registration or remap operations ran in between (a
name handed to the internal image registration fitting in a shader name
buffer); the later resolution inserts nothing: arena and chains are
unchanged, so no second default object is ever synthesized for the
stripped name. -/
theorem C2_default_sticky (env : Env) (st : TrState) (nm : List Char) (m1 : Int)
    (mip1 : Bool) (ops : List Op) (m2 : Int) (mip2 : Bool)
    (hwf : Wf st) (hgi : GlobalInv st) (hops : ∀ op ∈ ops, OpSmall op)
    (hdef : ((R_FindShader env st (some nm) m1 mip1).1.shaders.getD
      (R_FindShader env st (some nm) m1 mip1).2 dfltShader).defaultShader = true) :
    (R_FindShader env (runOps env (R_FindShader env st (some nm) m1 mip1).1 ops)
        (some nm) m2 mip2).2 = (R_FindShader env st (some nm) m1 mip1).2 ∧
    (R_FindShader env (runOps env (R_FindShader env st (some nm) m1 mip1).1 ops)
        (some nm) m2 mip2).1.shaders =
      (runOps env (R_FindShader env st (some nm) m1 mip1).1 ops).shaders ∧
    (R_FindShader env (runOps env (R_FindShader env st (some nm) m1 mip1).1 ops)
        (some nm) m2 mip2).1.buckets =
      (runOps env (R_FindShader env st (some nm) m1 mip1).1 ops).buckets := by
  have hinv1 := inv_established env st nm m1 mip1 hwf hgi hdef
  have hwf1 := wf_findShader env st (some nm) m1 mip1 hwf
  obtain ⟨hwf2, hinv2⟩ := wf_inv_runOps env (R_StripExtension nm)
    (R_FindShader env st (some nm) m1 mip1).2 ops
    (R_FindShader env st (some nm) m1 mip1).1 hwf1 hinv1 hops
  obtain ⟨hnl, hdi, hcase⟩ := R_FindShader_cases env
    (runOps env (R_FindShader env st (some nm) m1 mip1).1 ops) nm m2 mip2
  rcases hcase with ⟨hw, hs, hbk⟩ | ⟨hw, hk, p, hpn, hpi, hplm, hpd, hs, hbk⟩
  · have := hinv2.2.2.2 (clampLightmapIndex
      (runOps env (R_FindShader env st (some nm) m1 mip1).1 ops).numLightmaps m2).1
    exact ⟨Option.some.inj (hw.symm.trans this), hs, hbk⟩
  · have := hinv2.2.2.2 (clampLightmapIndex
      (runOps env (R_FindShader env st (some nm) m1 mip1).1 ops).numLightmaps m2).1
    rw [hw] at this
    exact Option.noConfusion this

/-- Witness for C2: resolving wall at the initial registry with an empty
corpus and no images yields a default flagged object (index 1); after a
further resolution of another name and an image registration, a
resolution of wall under a different lighting mode still returns
index 1. -/
theorem C2_default_sticky_witness :
    (Wf initState ∧ GlobalInv initState) ∧
    (OpSmall (Op.findShader (some ['b', 'a', 'z']) 0 true) ∧
      OpSmall (Op.registerFromImage ['p', 'i', 'c'] 2 true)) ∧
    ((R_FindShader env0 initState (some ['w', 'a', 'l', 'l']) (-1) true).1.shaders.getD
      (R_FindShader env0 initState (some ['w', 'a', 'l', 'l']) (-1) true).2
        dfltShader).defaultShader = true ∧
    (R_FindShader env0
        (runOps env0 (R_FindShader env0 initState (some ['w', 'a', 'l', 'l']) (-1) true).1
          [Op.findShader (some ['b', 'a', 'z']) 0 true,
           Op.registerFromImage ['p', 'i', 'c'] 2 true])
        (some ['w', 'a', 'l', 'l']) 5 false).2 =
      (R_FindShader env0 initState (some ['w', 'a', 'l', 'l']) (-1) true).2 := by
  have hops : ∀ op ∈ [Op.findShader (some ['b', 'a', 'z']) 0 true,
      Op.registerFromImage ['p', 'i', 'c'] 2 true], OpSmall op := by
    intro op hop
    rcases List.mem_cons.mp hop with rfl | hop2
    · exact trivial
    · rcases List.mem_cons.mp hop2 with rfl | hop3
      · show (['p', 'i', 'c'] : List Char).length < MAX_QPATH
        decide
      · exact absurd hop3 (List.not_mem_nil _)
  have hdef : ((R_FindShader env0 initState (some ['w', 'a', 'l', 'l']) (-1)
      true).1.shaders.getD
      (R_FindShader env0 initState (some ['w', 'a', 'l', 'l']) (-1) true).2
        dfltShader).defaultShader = true := by decide
  exact ⟨⟨wf_initState, globalInv_initState⟩,
    ⟨hops _ (List.mem_cons_self _ _),
     hops _ (List.mem_cons_of_mem _ (List.mem_cons_self _ _))⟩, hdef,
    (C2_default_sticky env0 initState ['w', 'a', 'l', 'l'] (-1) true
      [Op.findShader (some ['b', 'a', 'z']) 0 true,
       Op.registerFromImage ['p', 'i', 'c'] 2 true] 5 false
      wf_initState globalInv_initState hops hdef).1⟩

end TrFindShader
